import Mathlib

/-!
# auth-api: RS256 token signer / verifier

A shallow embedding of `pkg/jwt/rs256.go`, `pkg/jwt/jwt.go` and
`pkg/timegenerator/time.go`, together with a model of the parts of
`github.com/dgrijalva/jwt-go` (v3.2.0) that the repository calls:
`NewWithClaims`, `SignedString`, `Parse`/`ParseUnverified`, `MapClaims.Valid`
and the signing-method registry.

Conventions.
* Go maps are association lists read with `mapGet`; `mapSet` and `mapDelete`
  are Go's `m[k] = v` and `delete(m, k)`.
* `time.Time` is an instant, counted in nanoseconds since the Unix epoch;
  `time.Duration` is a number of nanoseconds.  The finite range of `time.Time`
  and of `int64` durations is not modelled.
* JSON numbers decode to `float64`; a `float64` is represented by the rational
  number it denotes.
* Results of repository functions are `Result`s: a returned value, a returned
  error (with its message) or a run-time panic.
* Cryptography, PEM parsing, JSON unmarshalling of the key endpoint's body and
  the HTTP transport are parameters (`Lib`, `HTTPClient`).
* The interface fields `timegen` and `httpClient` of `RS256` are taken to be
  non-nil, as `NewRS256` is meant to be called.
-/

namespace AuthAPI

/-! ## Go values, maps, results -/

/-- Values of Go's `interface{}` that claims and header fields can hold. -/
inductive Value where
  | null
  | bool (b : Bool)
  | str (s : String)
  | int (n : Int)
  | int32 (n : Int)
  | int64 (n : Int)
  | float32 (x : ℚ)
  | float64 (x : ℚ)
  | composite (repr : String)
deriving DecidableEq

/-- Go maps with string keys, as association lists (first binding wins). -/
abbrev GoMap (α : Type) := List (String × α)

/-- Map read `m[k]`; `none` when the key is absent. -/
def mapGet {α : Type} : GoMap α → String → Option α
  | [], _ => none
  | (k, v) :: rest, key => if k = key then some v else mapGet rest key

/-- Map deletion `delete(m, k)`. -/
def mapDelete {α : Type} : GoMap α → String → GoMap α
  | [], _ => []
  | (k, v) :: rest, key => if k = key then mapDelete rest key else (k, v) :: mapDelete rest key

/-- Map write `m[k] = v`. -/
def mapSet {α : Type} (m : GoMap α) (key : String) (v : α) : GoMap α :=
  (key, v) :: mapDelete m key

/-- Outcome of a repository function: value, returned error, or panic. -/
inductive Result (α : Type) where
  | ok (a : α)
  | err (msg : String)
  | panic (msg : String)
deriving DecidableEq

/-- Lift a library `(value, error)` pair into a `Result`. -/
def Result.ofExcept {α : Type} : Except String α → Result α
  | .ok a => .ok a
  | .error e => .err e

/-! ## time -/

/-- An instant: nanoseconds since 1970-01-01T00:00:00Z. -/
structure Time where
  ns : Int
deriving DecidableEq

/-- One second, as a `time.Duration` (nanoseconds). -/
def Second : Int := 1000000000

/-- The zero value `time.Time{}`: 0001-01-01T00:00:00Z. -/
def Time.zero : Time := ⟨-62135596800 * Second⟩

/-- Go `t.UTC()`: same instant, location set to UTC. -/
def Time.UTC (t : Time) : Time := t

/-- Go `t.Add(d)`. -/
def Time.Add (t : Time) (d : Int) : Time := ⟨t.ns + d⟩

/-- Go `t.Unix()`: whole seconds since the epoch (rounded down). -/
def Time.Unix (t : Time) : Int := t.ns / Second

/-- Go `time.Unix(sec, 0)`. -/
def Time.ofUnix (sec : Int) : Time := ⟨sec * Second⟩

/-- Go `t.Truncate(d)` for `d = time.Second`: round down to a whole second. -/
def Time.TruncateSecond (t : Time) : Time := ⟨t.ns - t.ns % Second⟩

/-- A clock, `timegenerator.TimeGenerator`: `Now` is what a call returns. -/
structure TimeGenerator where
  Now : Time

/-- The repository's clock `timegenerator.Now`, given the wall clock reading:
`time.Now().Truncate(time.Second)`. -/
def timegenerator.Now (wall : Time) : Time := wall.TruncateSecond

/-- Go `NewTimeGenerator()` at a moment when the wall clock reads `wall`. -/
def NewTimeGenerator (wall : Time) : TimeGenerator := ⟨timegenerator.Now wall⟩

/-! ## numbers across JSON -/

/-- Go conversion `int64(x)` of a `float64`: truncation toward zero; outside the
`int64` range the result is the amd64 one, the minimum `int64`. -/
def toInt64 (x : ℚ) : Int :=
  let t := Int.tdiv x.num x.den
  if -(2 : Int) ^ 63 ≤ t ∧ t < (2 : Int) ^ 63 then t else -(2 : Int) ^ 63

/-- How many low bits an `int64` magnitude `a` loses to fit the 53-bit
significand of a `float64`: the least `e` with `a / 2 ^ e < 2 ^ 53` (at most
11 for an `int64`). -/
def float64Exponent (a : Nat) : Nat :=
  ((List.range 12).find? (fun e => decide (a / 2 ^ e < 2 ^ 53))).getD 11

/-- The `float64` nearest to an `int64` (ties to even): what decoding the JSON
text of an integer yields. -/
def float64OfInt (n : Int) : ℚ :=
  let a := n.natAbs
  if a < 2 ^ 53 then (n : ℚ) else
    let e := float64Exponent a
    let q := a / 2 ^ e
    let r := a % 2 ^ e
    let half := 2 ^ (e - 1)
    let q1 := if half < r ∨ (r = half ∧ q % 2 = 1) then q + 1 else q
    ((Int.sign n * ((q1 * 2 ^ e : Nat) : Int) : Int) : ℚ)

/-- What a Go value becomes after `json.Marshal` and decoding into
`interface{}`: every number arrives as a `float64`.  (The decimal re-rounding
of a `float32` is not modelled.) -/
def jsonRoundTrip : Value → Value
  | .int n => .float64 (float64OfInt n)
  | .int32 n => .float64 (float64OfInt n)
  | .int64 n => .float64 (float64OfInt n)
  | .float32 x => .float64 x
  | v => v

/-- Decoding of a JSON object: `jsonRoundTrip` on every field. -/
def jsonDecodeMap (m : GoMap Value) : GoMap Value :=
  m.map (fun kv => (kv.1, jsonRoundTrip kv.2))

/-! ## jwt-go: signing methods, tokens, library primitives -/

/-- The concrete signing-method types of jwt-go. -/
inductive SigningMethod where
  | HMAC (alg : String)
  | RSA (alg : String)
  | RSAPSS (alg : String)
  | ECDSA (alg : String)
  | None
deriving DecidableEq

/-- Go `method.Alg()`. -/
def SigningMethod.Alg : SigningMethod → String
  | .HMAC a => a
  | .RSA a => a
  | .RSAPSS a => a
  | .ECDSA a => a
  | .None => "none"

/-- Go `jwt.SigningMethodRS256`. -/
def SigningMethodRS256 : SigningMethod := .RSA "RS256"

/-- The registry filled by jwt-go's `init` functions. -/
def signingMethods : GoMap SigningMethod :=
  [("HS256", .HMAC "HS256"), ("HS384", .HMAC "HS384"), ("HS512", .HMAC "HS512"),
   ("RS256", .RSA "RS256"), ("RS384", .RSA "RS384"), ("RS512", .RSA "RS512"),
   ("PS256", .RSAPSS "PS256"), ("PS384", .RSAPSS "PS384"), ("PS512", .RSAPSS "PS512"),
   ("ES256", .ECDSA "ES256"), ("ES384", .ECDSA "ES384"), ("ES512", .ECDSA "ES512"),
   ("none", .None)]

/-- Go `jwt.GetSigningMethod(alg)`; `none` is Go's nil. -/
def GetSigningMethod (alg : String) : Option SigningMethod := mapGet signingMethods alg

/-- The type assertion `method.(*jwt.SigningMethodRSA)`. -/
def SigningMethod.isRSA : SigningMethod → Bool
  | .RSA _ => true
  | _ => false

/-- An RSA private key (`*rsa.PrivateKey`), by identity. -/
structure PrivateKey where
  id : Nat
deriving DecidableEq

/-- An RSA public key (`*rsa.PublicKey`), by identity. -/
structure PublicKey where
  id : Nat
deriving DecidableEq

/-- Go `jwt.Token`. -/
structure Token where
  Method : Option SigningMethod
  Header : GoMap Value
  Claims : GoMap Value
  Signature : String
  Valid : Bool
deriving DecidableEq

/-- Why a token string does not decode (the failures of `ParseUnverified`
before the algorithm lookup). -/
inductive Malformed where
  | segments
  | bearer
  | base64 (offset : Nat)
  | jsonSyntax (detail : String)
  | jsonEOF
  | jsonType (detail : String)
deriving DecidableEq

/-- The message of the `ValidationError` for a malformed token string. -/
def Malformed.Error : Malformed → String
  | .segments => "token contains an invalid number of segments"
  | .bearer => "tokenstring should not contain \x27bearer \x27"
  | .base64 n => "illegal base64 data at input byte " ++ toString n
  | .jsonSyntax d => "invalid character " ++ d
  | .jsonEOF => "unexpected end of JSON input"
  | .jsonType d => "json: cannot unmarshal " ++ d

/-- A token string.  `compact header claims signature` stands for the compact
serialization whose first two segments are the base64url JSON of `header` and
`claims` and whose third segment is `signature`; `malformed` is any string
that is not of that shape. -/
inductive TokenString where
  | malformed (why : Malformed)
  | compact (header : GoMap Value) (claims : GoMap Value) (signature : String)
deriving DecidableEq

/-- One HTTP response as `getPublicKey` observes it: status code, the result of
`ioutil.ReadAll(resp.Body)` and the result of `resp.Body.Close()`. -/
structure Response where
  StatusCode : Nat
  Body : Except String String
  CloseErr : Option String

/-- The injected HTTP client together with the number of `Do` calls made so
far; the answer to a call may depend on how many calls came before it. -/
structure HTTPClient where
  Do : Nat → Except String Response
  calls : Nat

/-- Library primitives the embedding is parametric in.
* `Sign header claims key`: the signature segment `SignedString` computes over
  the serialized header and claims, or its error (marshalling or RSA).
* `Verify header claims signature key`: whether `Method.Verify` accepts.
* `ParseRSAPublicKeyFromPEM`: jwt-go's PEM parser.
* `Unmarshal`: `json.Unmarshal` of a response body into `map[string]string`.
* `NewRequest url`: whether `http.NewRequestWithContext` succeeds.
* `fmtFloat`: `fmt`'s `%v` rendering of a floating-point number. -/
structure Lib where
  Sign : GoMap Value → GoMap Value → PrivateKey → Except String String
  Verify : GoMap Value → GoMap Value → String → PublicKey → Bool
  ParseRSAPublicKeyFromPEM : String → Except String PublicKey
  Unmarshal : String → Except String (GoMap String)
  NewRequest : String → Bool
  fmtFloat : ℚ → String

/-- Whether `sub` starts the character list `s`. -/
def startsWith : List Char → List Char → Bool
  | _, [] => true
  | [], _ :: _ => false
  | c :: s, d :: sub => decide (c = d) && startsWith s sub

/-- The dynamic type Go names when a type assertion on a header or claim field
fails; an absent field is nil, and a `composite` is a JSON object when its
rendering starts with `map[`, a JSON array otherwise. -/
def goTypeName : Option Value → String
  | none => "nil"
  | some .null => "nil"
  | some (.bool _) => "bool"
  | some (.str _) => "string"
  | some (.int _) => "int"
  | some (.int32 _) => "int32"
  | some (.int64 _) => "int64"
  | some (.float32 _) => "float32"
  | some (.float64 _) => "float64"
  | some (.composite r) =>
    if startsWith r.data "map[".data then "map[string]interface {}" else "[]interface {}"

/-- Go `fmt.Sprintf("%v", v)` for a map entry that may be absent. -/
def fmtV (lib : Lib) : Option Value → String
  | none => "<nil>"
  | some .null => "<nil>"
  | some (.bool b) => if b then "true" else "false"
  | some (.str s) => s
  | some (.int n) => toString n
  | some (.int32 n) => toString n
  | some (.int64 n) => toString n
  | some (.float32 x) => lib.fmtFloat x
  | some (.float64 x) => lib.fmtFloat x
  | some (.composite r) => r

/-- Go `jwt.NewWithClaims(method, claims)`. -/
def NewWithClaims (method : SigningMethod) (claims : GoMap Value) : Token :=
  { Method := some method,
    Header := [("typ", .str "JWT"), ("alg", .str method.Alg)],
    Claims := claims, Signature := "", Valid := false }

/-- Go `token.SignedString(key)`. -/
def Token.SignedString (lib : Lib) (token : Token) (key : PrivateKey) :
    Except String TokenString :=
  match lib.Sign token.Header token.Claims key with
  | .error e => .error e
  | .ok sig => .ok (.compact token.Header token.Claims sig)

/-! ## pkg/jwt -/

/-- The constant `AuthenticationType` of jwt.go. -/
def AuthenticationType : String := "JWT"

/-- A value stored in the `sync.Map` cache. -/
inductive CacheValue where
  | bytes (b : String)
  | other (repr : String)
deriving DecidableEq

/-- The struct `RS256` of rs256.go. -/
structure RS256 where
  timegen : TimeGenerator
  keyID : String
  issuer : String
  audience : String
  maxAge : Int
  privateKey : Option PrivateKey
  publicKey : Option PublicKey
  publicKeyURL : Option String
  httpClient : HTTPClient
  cachedPublicKey : GoMap CacheValue

/-- The five assignments `payload[...] = ...` of `Sign`. -/
def RS256.injectClaims (R : RS256) (now expiresAt : Time) (payload : GoMap Value) :
    GoMap Value :=
  let payload := mapSet payload "iss" (.str R.issuer)
  let payload := mapSet payload "aud" (.str R.audience)
  let payload := mapSet payload "auth_time" (.int64 now.Unix)
  let payload := mapSet payload "iat" (.int64 now.Unix)
  let payload := mapSet payload "exp" (.int64 expiresAt.Unix)
  payload

/-- The token `Sign` builds before signing it (lines 43-44). -/
def RS256.buildToken (R : RS256) (payload : GoMap Value) : Token :=
  let token := NewWithClaims SigningMethodRS256 payload
  { token with Header := mapSet token.Header "kid" (.str R.keyID) }

/-- Go `RS256.Sign`.  The payload is `none` for a nil map, on which the first
assignment panics.  The second component is the caller's map after the call
(Go maps are passed by reference). -/
def RS256.Sign (R : RS256) (lib : Lib) (payload : Option (GoMap Value)) :
    Result (TokenString × Time) × Option (GoMap Value) :=
  match R.privateKey with
  | none => (.err "no private key provided", payload)
  | some key =>
    let now := R.timegen.Now.UTC
    let expiresAt := (now.Add R.maxAge).UTC
    match payload with
    | none => (.panic "assignment to entry in nil map", none)
    | some payload =>
      let payload := R.injectClaims now expiresAt payload
      let token := R.buildToken payload
      match token.SignedString lib key with
      | .error e => (.err e, some payload)
      | .ok tokenString => (.ok (tokenString, expiresAt), some payload)

/-! ## jwt-go: claim validation and parsing -/

/-- Go `verifyExp(exp, now, required)`. -/
def verifyExp (exp now : Int) (required : Bool) : Bool :=
  if exp = 0 then !required else decide (now ≤ exp)

/-- Go `verifyIat(iat, now, required)`. -/
def verifyIat (iat now : Int) (required : Bool) : Bool :=
  if iat = 0 then !required else decide (iat ≤ now)

/-- Go `verifyNbf(nbf, now, required)`. -/
def verifyNbf (nbf now : Int) (required : Bool) : Bool :=
  if nbf = 0 then !required else decide (nbf ≤ now)

/-- Go `MapClaims.VerifyExpiresAt(cmp, req)` (no `json.Number`: the parser is
used without `UseJSONNumber`). -/
def VerifyExpiresAt (m : GoMap Value) (cmp : Int) (req : Bool) : Bool :=
  match mapGet m "exp" with
  | some (.float64 exp) => verifyExp (toInt64 exp) cmp req
  | _ => req == false

/-- Go `MapClaims.VerifyIssuedAt(cmp, req)`. -/
def VerifyIssuedAt (m : GoMap Value) (cmp : Int) (req : Bool) : Bool :=
  match mapGet m "iat" with
  | some (.float64 iat) => verifyIat (toInt64 iat) cmp req
  | _ => req == false

/-- Go `MapClaims.VerifyNotBefore(cmp, req)`. -/
def VerifyNotBefore (m : GoMap Value) (cmp : Int) (req : Bool) : Bool :=
  match mapGet m "nbf" with
  | some (.float64 nbf) => verifyNbf (toInt64 nbf) cmp req
  | _ => req == false

/-- Go `MapClaims.Valid()` when `jwt.TimeFunc().Unix()` reads `now`: `none` is
a nil error, `some msg` a `*ValidationError` whose `Error()` is `msg` (the
message of the last check that failed). -/
def MapClaimsValid (m : GoMap Value) (now : Int) : Option String :=
  let inner : Option String := none
  let inner := if VerifyExpiresAt m now false = false then some "Token is expired" else inner
  let inner := if VerifyIssuedAt m now false = false then some "Token used before issued" else inner
  let inner := if VerifyNotBefore m now false = false then some "Token is not valid yet" else inner
  inner

/-- Go `Parser.ParseUnverified`: the decoded token, or the error message.  (The
partly filled token the library returns next to an error is not kept.) -/
def ParseUnverified : TokenString → Except String Token
  | .malformed why => .error why.Error
  | .compact header claims _ =>
    let token : Token :=
      { Method := none, Header := jsonDecodeMap header, Claims := jsonDecodeMap claims,
        Signature := "", Valid := false }
    match mapGet token.Header "alg" with
    | some (.str method) =>
      match GetSigningMethod method with
      | some m => .ok { token with Method := some m }
      | none => .error "signing method (alg) is unavailable."
    | _ => .error "signing method (alg) is unspecified."

/-- The signature segment of a token string. -/
def TokenString.signature : TokenString → String
  | .malformed _ => ""
  | .compact _ _ sig => sig

/-- Go `Method.Verify(signingString, signature, key)` on the first two segments
of the token string. -/
def verifySignature (lib : Lib) (tokenString : TokenString) (key : PublicKey) : Bool :=
  match tokenString with
  | .malformed _ => false
  | .compact header claims sig => lib.Verify header claims sig key

/-- Go `jwt.Parse(tokenString, keyFunc)` (`ParseWithClaims` with `MapClaims`),
for a key function that threads a state `σ` and never returns a
`*ValidationError` of its own.  `now` is the reading of `jwt.TimeFunc` inside
the library's own `Claims.Valid()`.  Returns Go's `(token, err)`: the error is
`ok ()` for nil, `err msg` for an error whose `Error()` is `msg`, and `panic`
when the key function panicked. -/
def jwtParse {σ : Type} (lib : Lib) (tokenString : TokenString)
    (keyFunc : Token → σ → Result PublicKey × σ) (st : σ) (now : Int) :
    Option Token × Result Unit × σ :=
  match ParseUnverified tokenString with
  | .error e => (none, .err e, st)
  | .ok token =>
    match keyFunc token st with
    | (.panic p, st) => (some token, .panic p, st)
    | (.err e, st) => (some token, .err e, st)
    | (.ok key, st) =>
      let vErr := MapClaimsValid token.Claims now
      let token := { token with Signature := tokenString.signature }
      let vErr := if verifySignature lib tokenString key then vErr
        else some "crypto/rsa: verification error"
      match vErr with
      | none => (some { token with Valid := true }, .ok (), st)
      | some e => (some token, .err e, st)

/-! ## pkg/jwt: verification -/

/-- Go `RS256.validateHeaders`: `none` is a nil error. -/
def RS256.validateHeaders (_R : RS256) (lib : Lib) (token : Token) : Option String :=
  let isRSA := match token.Method with
    | some m => m.isRSA
    | none => false
  if !isRSA then
    some ("invalid signing method [" ++ fmtV lib (mapGet token.Header "alg") ++ "]")
  else
    let hasValidType := match mapGet token.Header "type" with
      | some (.str typ) => decide (typ = AuthenticationType)
      | _ => false
    if !hasValidType then
      some ("invalid signing type [" ++ fmtV lib (mapGet token.Header "typ") ++ "]")
    else none

/-- Lines 172-191 of `validateClaims`: the issuer and audience checks. -/
def RS256.checkIssuerAudience (R : RS256) (lib : Lib) (claims : GoMap Value) :
    Option String :=
  let hasValidIssuer := match mapGet claims "iss" with
    | some (.str issuer) => decide (issuer = R.issuer)
    | _ => false
  if !hasValidIssuer then
    some ("invalid issuer [" ++ fmtV lib (mapGet claims "iss") ++ "]")
  else
    let hasValidAudience := match mapGet claims "aud" with
      | some (.str audience) => decide (audience = R.audience)
      | _ => false
    if !hasValidAudience then
      some ("invalid audience [" ++ fmtV lib (mapGet claims "aud") ++ "]")
    else none

/-- Go `RS256.validateClaims`; `now` is the reading of `jwt.TimeFunc` inside
`jwtClaims.Valid()`. -/
def RS256.validateClaims (R : RS256) (lib : Lib) (claims : GoMap Value)
    (ignoreExpiration : Bool) (now : Int) : Option String :=
  let early := if !ignoreExpiration then MapClaimsValid claims now else none
  match early with
  | some e => some e
  | none => R.checkIssuerAudience lib claims

/-- The part of `getPublicKey` after `httpClient.Do` returned a response
(lines 129-146), before the deferred `Body.Close()`. -/
def RS256.readResponse (lib : Lib) (resp : Response) (kid : String) : Result PublicKey :=
  let notFound : Result PublicKey :=
    .err ("failed getting public key: kid " ++ kid ++ " is not found")
  if resp.StatusCode = 200 then
    match resp.Body with
    | .error e => .err e
    | .ok bodyBytes =>
      match lib.Unmarshal bodyBytes with
      | .error e => .err e
      | .ok result =>
        match mapGet result kid with
        | some resultKID => Result.ofExcept (lib.ParseRSAPublicKeyFromPEM resultKID)
        | none => notFound
  else notFound

/-- Go `RS256.getPublicKey`, returning the instance afterwards (its cache and
the call counter of its HTTP client may have changed). -/
def RS256.getPublicKey (R : RS256) (lib : Lib) (kid : String) : Result PublicKey × RS256 :=
  match R.publicKey with
  | some key => (.ok key, R)
  | none =>
    match R.publicKeyURL with
    | none => (.err "no public key URL provided", R)
    | some url =>
      let cacheKey := url ++ ":" ++ kid
      match mapGet R.cachedPublicKey cacheKey with
      | some (.bytes publicKeyByte) =>
        (Result.ofExcept (lib.ParseRSAPublicKeyFromPEM publicKeyByte), R)
      | _ =>
        let R := { R with cachedPublicKey := mapDelete R.cachedPublicKey cacheKey }
        if !lib.NewRequest url then
          (.panic "runtime error: invalid memory address or nil pointer dereference", R)
        else
          let answer := R.httpClient.Do R.httpClient.calls
          let R := { R with httpClient := { R.httpClient with calls := R.httpClient.calls + 1 } }
          match answer with
          | .error e => (.err e, R)
          | .ok resp =>
            let result := RS256.readResponse lib resp kid
            match resp.CloseErr with
            | some e => (.panic e, R)
            | none => (result, R)

/-- The key function `Parse` hands to `jwt.Parse` (lines 54-67); `now` is the
clock reading inside `validateClaims`. -/
def RS256.keyFunc (lib : Lib) (ignoreExpiration : Bool) (now : Int) (token : Token)
    (R : RS256) : Result PublicKey × RS256 :=
  match R.validateHeaders lib token with
  | some e => (.err e, R)
  | none =>
    match R.validateClaims lib token.Claims ignoreExpiration now with
    | some e => (.err e, R)
    | none =>
      match mapGet token.Header "kid" with
      | some (.str kid) => R.getPublicKey lib kid
      | v =>
        (.panic ("interface conversion: interface {} is " ++ goTypeName v ++ ", not string"), R)

/-- The `switch` of lines 81-92: the expiry read from the `exp` claim; a value
of any other type leaves the zero `time.Time`. -/
def expiryOfClaim : Value → Time
  | .int64 expirationTime => (Time.ofUnix expirationTime).UTC
  | .int32 expirationTime => (Time.ofUnix expirationTime).UTC
  | .int expirationTime => (Time.ofUnix expirationTime).UTC
  | .float64 expirationTime => (Time.ofUnix (toInt64 expirationTime)).UTC
  | .float32 expirationTime => (Time.ofUnix (toInt64 expirationTime)).UTC
  | _ => Time.zero

/-- Lines 77-93 of `Parse`: the presence check on `exp` and the expiry. -/
def extractExpiry (token : Token) : Result (Token × Time) :=
  match mapGet token.Claims "exp" with
  | none => .err "invalid claims: invalid expiration"
  | some .null => .err "invalid claims: invalid expiration"
  | some v => .ok (token, expiryOfClaim v)

/-- Go `RS256.Parse`.  `now1` is the reading of `jwt.TimeFunc` in
`validateClaims`, `now2` the one in the library's own validation.  The second
component is the instance after the call. -/
def RS256.Parse (R : RS256) (lib : Lib) (tokenString : TokenString)
    (ignoreExpiration : Bool) (now1 now2 : Int) : Result (Token × Time) × RS256 :=
  match jwtParse lib tokenString (RS256.keyFunc lib ignoreExpiration now1) R now2 with
  | (_, .panic p, R) => (.panic p, R)
  | (token, status, R) =>
    let returned : Option String := match status with
      | .err e =>
        if e = "Token is expired" ∧ !ignoreExpiration then some e
        else if e ≠ "Token is expired" then some e
        else none
      | _ => none
    match returned with
    | some e => (.err e, R)
    | none =>
      match token with
      | none => (.panic "runtime error: invalid memory address or nil pointer dereference", R)
      | some token => (extractExpiry token, R)

/-! ## pkg/mysql: the dynamic query builder

`querybuilder.go`.  A `DynamicQueryBuilder` is a Go string.  The library
functions it calls are modelled as follows: `strconv.Itoa` is the decimal
rendering of an integer, `strings.TrimSpace`, `strings.Join`, `strings.Index`
and `template.HTMLEscapeString` are defined below, and `fmt.Sprintf` with one
string operand is defined for the formats whose only verbs are `%s` and `%%`;
what `fmt` prints for other formats, for `%f` of a float and for `%t` of a
`time.Time` is a parameter (`Fmt`). -/

/-- The `fmt` renderings the embedding is parametric in.
* `Float x`: `fmt.Sprintf("%f", x)`.
* `BadTime t`: `fmt.Sprintf("%t", t)` for a `time.Time` (a bad-verb text).
* `Other format val`: `fmt.Sprintf(format, val)` for a format with a verb
  other than `%s` and `%%`. -/
structure Fmt where
  Float : ℚ → String
  BadTime : Time → String
  Other : String → String → String

/-- Go `strconv.Itoa`. -/
def Itoa (n : Int) : String := toString n

/-- Go `unicode.IsSpace`. -/
def isSpace (c : Char) : Bool :=
  let n := c.toNat
  (9 ≤ n && n ≤ 13) || n == 32 || n == 133 || n == 160 || n == 5760 ||
  (8192 ≤ n && n ≤ 8202) || n == 8232 || n == 8233 || n == 8239 || n == 8287 || n == 12288

/-- Go `strings.TrimSpace`. -/
def TrimSpace (s : String) : String :=
  String.mk ((s.data.dropWhile isSpace).reverse.dropWhile isSpace).reverse

/-- The replacement `template.HTMLEscapeString` makes for one character. -/
def htmlEscapeChar (c : Char) : List Char :=
  if c = Char.ofNat 34 then "&#34;".data
  else if c = Char.ofNat 39 then "&#39;".data
  else if c = Char.ofNat 38 then "&amp;".data
  else if c = Char.ofNat 60 then "&lt;".data
  else if c = Char.ofNat 62 then "&gt;".data
  else if c = Char.ofNat 0 then [Char.ofNat 65533]
  else [c]

/-- Go `template.HTMLEscapeString`. -/
def HTMLEscapeString (s : String) : String :=
  String.mk (s.data.flatMap htmlEscapeChar)

/-- The byte offset of the first occurrence of `sub` in `s`, counting from
`offset` for the head of `s`; `-1` when there is none. -/
def indexFrom (sub : List Char) : List Char → Nat → Int
  | [], offset => if startsWith [] sub then (offset : Int) else -1
  | c :: rest, offset =>
    if startsWith (c :: rest) sub then (offset : Int)
    else indexFrom sub rest (offset + c.utf8Size)

/-- Go `strings.Index(s, substr)`. -/
def stringsIndex (s substr : String) : Int := indexFrom substr.data s.data 0

/-- Go `strings.Join(elems, sep)`. -/
def stringsJoin : List String → String → String
  | [], _ => ""
  | [a], _ => a
  | a :: b :: rest, sep => a ++ sep ++ stringsJoin (b :: rest) sep

/-- The output of `fmt.Sprintf(format, val)` for a format whose only verbs are
`%s` and `%%`; the operand is `some val` until a `%s` has consumed it.  A
second `%s` prints `%!s(MISSING)`, a final lone `%` prints `%!(NOVERB)`, an
operand left over is reported at the end.  `none` for any other verb. -/
def sprintf1 : List Char → Option String → Option (List Char)
  | [], none => some []
  | [], some val => some ("%!(EXTRA string=" ++ val ++ ")").data
  | [c], operand =>
    if c = '%' then (sprintf1 [] operand).map (fun out => "%!(NOVERB)".data ++ out)
    else (sprintf1 [] operand).map (fun out => c :: out)
  | c :: d :: rest, operand =>
    if c = '%' then
      if d = '%' then (sprintf1 rest operand).map (fun out => '%' :: out)
      else if d = 's' then
        match operand with
        | some val => (sprintf1 rest none).map (fun out => val.data ++ out)
        | none => (sprintf1 rest none).map (fun out => "%!s(MISSING)".data ++ out)
      else none
    else (sprintf1 (d :: rest) operand).map (fun out => c :: out)

/-- Go `fmt.Sprintf(format, val)` with one string operand. -/
def Sprintf (f : Fmt) (format val : String) : String :=
  match sprintf1 format.data (some val) with
  | some out => String.mk out
  | none => f.Other format val

/-- The dynamic type of the value an `Expression` holds. -/
inductive ExpValue where
  | nil
  | int (n : Int)
  | int16 (n : Int)
  | int32 (n : Int)
  | int64 (n : Int)
  | float32 (x : ℚ)
  | float64 (x : ℚ)
  | bool (b : Bool)
  | time (t : Time)
  | str (s : String)
  | other (repr : String)
deriving DecidableEq

/-- Go `Expression`. -/
structure Expression where
  Key : String
  Exp : String
  Value : ExpValue
deriving DecidableEq

/-- Go `DynamicQueryBuilder`, a string type. -/
abbrev DynamicQueryBuilder := String

/-- A variadic argument of `And` / `OR`, by dynamic type: an `Expression`, a
`string`, a `*string`, a `DynamicQueryBuilder`, or anything else. -/
inductive Component where
  | expression (e : Expression)
  | str (s : String)
  | strPtr (s : String)
  | builder (b : DynamicQueryBuilder)
  | other (repr : String)
deriving DecidableEq

/-- Go `DynamicQueryBuilder.NewExp`. -/
def DynamicQueryBuilder.NewExp (_dqb : DynamicQueryBuilder) (key assignment : String)
    (value : ExpValue) : Expression :=
  { Key := key, Exp := assignment, Value := value }

/-- Go `Expression.HasLikeOperator`: the operator is compared with `LIKE` as a
whole, so an operator written with blanks around it does not count. -/
def Expression.HasLikeOperator (e : Expression) : Bool := decide (e.Exp = "LIKE")

/-- Go `Expression.getReplaceExp`. -/
def Expression.getReplaceExp (e : Expression) : String :=
  match e.Value with
  | .int _ => "%s"
  | .int64 _ => "%s"
  | .int32 _ => "%s"
  | .int16 _ => "%s"
  | .float32 _ => "%s"
  | .float64 _ => "%s"
  | .bool _ => "%s"
  | _ => if e.HasLikeOperator then "\x27%%%s%%\x27" else "\x27%s\x27"

/-- Go `Expression.ToString`.  In the first `case` the assertion
`e.Value.(int)` panics for an `int16`, `int32` or `int64`; a value of a type
no `case` lists leaves `val` and `clause` empty. -/
def Expression.ToString (f : Fmt) (e : Expression) : Result String :=
  match e.Value with
  | .nil => .ok ""
  | .int n => .ok (Sprintf f (e.Key ++ e.Exp ++ e.getReplaceExp) (Itoa n))
  | .int16 _ => .panic "interface conversion: interface {} is int16, not int"
  | .int32 _ => .panic "interface conversion: interface {} is int32, not int"
  | .int64 _ => .panic "interface conversion: interface {} is int64, not int"
  | .float32 x => .ok (Sprintf f (e.Key ++ e.Exp ++ e.getReplaceExp) (f.Float x))
  | .float64 x => .ok (Sprintf f (e.Key ++ e.Exp ++ e.getReplaceExp) (f.Float x))
  | .bool b => .ok (Sprintf f (e.Key ++ e.Exp ++ e.getReplaceExp) (if b then "true" else "false"))
  | .time t => .ok (Sprintf f (e.Key ++ e.Exp ++ e.getReplaceExp) (f.BadTime t))
  | .str s =>
    if TrimSpace s = "" then .ok ""
    else .ok (Sprintf f (e.Key ++ e.Exp ++ e.getReplaceExp) (HTMLEscapeString s))
  | .other _ => .ok (Sprintf f "" "")

/-- Go `componentToString`.  The `case string, *string` asserts `c.(string)`,
which panics for a `*string`. -/
def componentToString (f : Fmt) : Component → Result DynamicQueryBuilder
  | .expression e => e.ToString f
  | .str s => .ok s
  | .strPtr _ => .panic "interface conversion: interface {} is *string, not string"
  | .builder v => .ok v
  | .other _ => .ok ""

/-- The loop of `getOperationExpression`: the non-empty renderings, in order. -/
def collectClauses (f : Fmt) : List Component → Result (List String)
  | [] => .ok []
  | v :: rest =>
    match componentToString f v with
    | .ok value =>
      match collectClauses f rest with
      | .ok clauses => .ok (if value ≠ "" then value :: clauses else clauses)
      | .err e => .err e
      | .panic p => .panic p
    | .err e => .err e
    | .panic p => .panic p

/-- Go `DynamicQueryBuilder.getOperationExpression`. -/
def DynamicQueryBuilder.getOperationExpression (f : Fmt) (_dqb : DynamicQueryBuilder)
    (operation : String) (component : List Component) : Result DynamicQueryBuilder :=
  match component with
  | [] => .ok ""
  | [c] => componentToString f c
  | _ =>
    match collectClauses f component with
    | .ok clauses =>
      if 0 < clauses.length then
        .ok ("( " ++ stringsJoin clauses (" " ++ operation ++ " ") ++ ")")
      else .ok ""
    | .err e => .err e
    | .panic p => .panic p

/-- Go `DynamicQueryBuilder.And`. -/
def DynamicQueryBuilder.And (f : Fmt) (dqb : DynamicQueryBuilder)
    (component : List Component) : Result DynamicQueryBuilder :=
  DynamicQueryBuilder.getOperationExpression f dqb "AND" component

/-- Go `DynamicQueryBuilder.OR`. -/
def DynamicQueryBuilder.OR (f : Fmt) (dqb : DynamicQueryBuilder)
    (component : List Component) : Result DynamicQueryBuilder :=
  DynamicQueryBuilder.getOperationExpression f dqb "OR" component

/-- Go `DynamicQueryBuilder.ToString`. -/
def DynamicQueryBuilder.ToString (dqb : DynamicQueryBuilder) : String := dqb

/-- Go `DynamicQueryBuilder.BindSQL`. -/
def DynamicQueryBuilder.BindSQL (dqb : DynamicQueryBuilder) (sql : String) : String :=
  if dqb ≠ "" ∧ dqb ≠ "( )" then
    let index := stringsIndex (DynamicQueryBuilder.ToString dqb) "LIMIT"
    if index = 1 then sql ++ DynamicQueryBuilder.ToString dqb
    else sql ++ " WHERE " ++ dqb
  else sql

/-! ## Concrete instances used to evaluate the embedding -/

/-- A small instance of the library primitives: key 1 signs with the mark
`signed`, which verifies under public key 1 only; `PEM-1` is the PEM text of
public key 1; the only body that unmarshals is `kid-1:PEM-1`. -/
def demoLib : Lib :=
  { Sign := fun _ _ key => if key.id = 1 then .ok "signed" else .error "crypto/rsa: message too long for RSA key size"
    Verify := fun _ _ sig key => decide (sig = "signed") && decide (key.id = 1)
    ParseRSAPublicKeyFromPEM := fun pem =>
      if pem = "PEM-1" then .ok ⟨1⟩ else .error "Invalid Key: Key must be PEM encoded PKCS1 or PKCS8 private key"
    Unmarshal := fun body =>
      if body = "kid-1:PEM-1" then .ok [("kid-1", "PEM-1")] else .error "unexpected end of JSON input"
    NewRequest := fun _ => true
    fmtFloat := fun _ => "0" }

/-- An HTTP client whose every call is answered `200` with the key set
`kid-1:PEM-1`; no call made yet. -/
def demoClient : HTTPClient :=
  { Do := fun _ => .ok { StatusCode := 200, Body := .ok "kid-1:PEM-1", CloseErr := none }
    calls := 0 }

/-- The instance of the spec's example scenario: issuer `svc-a`, audience
`svc-b`, max-age one hour, static key pair 1, wall clock at
1700000000.25 s. -/
def demoRS256 : RS256 :=
  { timegen := NewTimeGenerator ⟨1700000000250000000⟩
    keyID := "kid-1"
    issuer := "svc-a"
    audience := "svc-b"
    maxAge := 3600 * Second
    privateKey := some ⟨1⟩
    publicKey := some ⟨1⟩
    publicKeyURL := none
    httpClient := demoClient
    cachedPublicKey := [] }

/-- The same verifier without a static public key: keys come from the
endpoint `https://keys`. -/
def demoRemote : RS256 :=
  { demoRS256 with publicKey := none, publicKeyURL := some "https://keys" }

/-- The example instance with a max-age of one and a half seconds. -/
def demoFractional : RS256 := { demoRS256 with maxAge := 1500000000 }

/-- The example instance with a clock far enough in the future for `exp` to
exceed 2^53 seconds (max-age one second). -/
def demoFarFuture : RS256 :=
  { demoRS256 with timegen := NewTimeGenerator ⟨9007199254740992 * Second⟩, maxAge := Second }

/-- The token string `Sign` returns at the example instance for the payload
`user_id = 42`. -/
def demoSigned : TokenString :=
  .compact [("kid", .str "kid-1"), ("typ", .str "JWT"), ("alg", .str "RS256")]
    [("exp", .int64 1700003600), ("iat", .int64 1700000000),
     ("auth_time", .int64 1700000000), ("aud", .str "svc-b"), ("iss", .str "svc-a"),
     ("user_id", .int 42)]
    "signed"

/-- A decoded RS256 token with the given header. -/
def demoToken (header : GoMap Value) : Token :=
  { Method := some (.RSA "RS256"), Header := header, Claims := [], Signature := "",
    Valid := false }

/-- A header the verifier accepts: RS256, the field `type` set to `JWT`, key
identifier `kid-1`. -/
def acceptedHeader : GoMap Value :=
  [("alg", .str "RS256"), ("type", .str "JWT"), ("kid", .str "kid-1")]

/-- Claims for the example verifier with the given `exp` and further fields. -/
def demoClaims (exp : Value) (more : GoMap Value) : GoMap Value :=
  [("iss", .str "svc-a"), ("aud", .str "svc-b"), ("exp", exp)] ++ more

/-- The decoded form of a token with header `acceptedHeader`. -/
def acceptedToken (claims : GoMap Value) : Token :=
  { Method := some (.RSA "RS256"), Header := acceptedHeader, Claims := claims,
    Signature := "", Valid := false }

/-- The remote verifier whose cache holds bytes that are not a PEM key under
the cache key of `kid-1`. -/
def demoPoisoned : RS256 :=
  { demoRemote with cachedPublicKey := [("https://keys:kid-1", .bytes "garbage")] }

/-- A rendering of the `fmt` parameters: six decimals are not computed, the
texts only mark which rendering was asked for. -/
def demoFmt : Fmt :=
  { Float := fun _ => "0.000000"
    BadTime := fun _ => "%!t(time.Time)"
    Other := fun format _ => format }

/-- The builder of `TestDynamicQueryBuilder_GenerateQuery`: the filter holds
`start_date`, `end_date`, `status` and `id = 2`, no `start_time` and no
`end_time`; `inner` is what the nested `dqb.OR(...)` returned. -/
def testComponents (inner : DynamicQueryBuilder) : List Component :=
  [.expression (DynamicQueryBuilder.NewExp "" "a.created_at" ">=" (.str ("2018-01-01" ++ " " ++ ""))),
   .expression (DynamicQueryBuilder.NewExp "" "a.created_at" "<=" (.str ("2019-01-01" ++ " " ++ ""))),
   .str "a.id >= 0",
   .str "a.status IN (\x27pending\x27,\x27complete\x27,\x27initiated\x27)",
   .builder inner]

/-- The components of the nested `dqb.OR(...)` of the test. -/
def testInner : List Component :=
  [.expression (DynamicQueryBuilder.NewExp "" "a.status" "=" (.str "some_status")),
   .expression (DynamicQueryBuilder.NewExp "" "a.id" "=" (.int 2))]

/-- The remote verifier whose cache holds, under the cache key of `kid-1`, a
value that is not a byte slice. -/
def demoWrongType : RS256 :=
  { demoRemote with cachedPublicKey := [("https://keys:kid-1", .other "PEM-1")] }

/-- The example verifier with a static public key, an endpoint and a cache
entry that does not parse. -/
def demoStatic : RS256 :=
  { demoPoisoned with publicKey := some ⟨1⟩ }

/-- The remote verifier behind a client whose response body fails to close. -/
def demoCloseFails : RS256 :=
  { demoRemote with
    httpClient :=
      { Do := fun _ => .ok { StatusCode := 200, Body := .ok "kid-1:PEM-1",
                              CloseErr := some "close: connection reset" }
        calls := 0 } }

/-- The example signer with a private key the signing primitive refuses. -/
def demoSignFails : RS256 := { demoRS256 with privateKey := some ⟨2⟩ }

/-! ## Lemmas on maps -/

theorem mapGet_mapDelete {α : Type} (m : GoMap α) (k k2 : String) :
    mapGet (mapDelete m k) k2 = if k = k2 then none else mapGet m k2 := by
  induction m with
  | nil => simp [mapDelete, mapGet]
  | cons p rest ih =>
    obtain ⟨a, b⟩ := p
    by_cases h : a = k
    · subst h
      simp only [mapDelete, if_true, ih, mapGet]
      by_cases h2 : a = k2 <;> simp [h2]
    · simp only [mapDelete, if_neg h, mapGet, ih]
      by_cases h2 : a = k2
      · subst h2
        have : ¬ k = a := fun e => h e.symm
        simp [this]
      · simp [h2]

theorem mapGet_mapSet {α : Type} (m : GoMap α) (k k2 : String) (v : α) :
    mapGet (mapSet m k v) k2 = if k = k2 then some v else mapGet m k2 := by
  simp only [mapSet, mapGet, mapGet_mapDelete]
  by_cases h : k = k2 <;> simp [h]

theorem mapGet_jsonDecodeMap (m : GoMap Value) (k : String) :
    mapGet (jsonDecodeMap m) k = (mapGet m k).map jsonRoundTrip := by
  induction m with
  | nil => simp [jsonDecodeMap, mapGet]
  | cons p rest ih =>
    obtain ⟨a, b⟩ := p
    simp only [jsonDecodeMap, List.map_cons, mapGet] at ih ⊢
    by_cases h : a = k
    · simp [h]
    · simp only [if_neg h]
      exact ih

/-- What `Sign` returns when a private key is configured, in terms of the
signing primitive. -/
theorem Sign_eq (R : RS256) (lib : Lib) (payload : GoMap Value) (key : PrivateKey)
    (hk : R.privateKey = some key) :
    (R.Sign lib (some payload)).1 =
      (match lib.Sign (R.buildToken (R.injectClaims R.timegen.Now (R.timegen.Now.Add R.maxAge)
            payload)).Header
          (R.injectClaims R.timegen.Now (R.timegen.Now.Add R.maxAge) payload) key with
        | .ok sig => .ok (.compact
            (R.buildToken (R.injectClaims R.timegen.Now (R.timegen.Now.Add R.maxAge)
              payload)).Header
            (R.injectClaims R.timegen.Now (R.timegen.Now.Add R.maxAge) payload) sig,
            R.timegen.Now.Add R.maxAge)
        | .error e => .err e) := by
  simp only [RS256.Sign, hk, Time.UTC, Token.SignedString, RS256.buildToken, NewWithClaims]
  cases lib.Sign _ _ key <;> rfl

/-- The claims `Sign` puts into the token, read key by key. -/
theorem mapGet_injectClaims (R : RS256) (now expiresAt : Time) (payload : GoMap Value)
    (k : String) :
    mapGet (R.injectClaims now expiresAt payload) k =
      if k = "exp" then some (.int64 expiresAt.Unix)
      else if k = "iat" then some (.int64 now.Unix)
      else if k = "auth_time" then some (.int64 now.Unix)
      else if k = "aud" then some (.str R.audience)
      else if k = "iss" then some (.str R.issuer)
      else mapGet payload k := by
  simp only [RS256.injectClaims, mapGet_mapSet, eq_comm]

/-! ## Sign -/

/-- C6: with a private key configured, the claim set of the token `Sign`
builds is the caller's payload overridden at exactly the five keys `iss`,
`aud`, `auth_time`, `iat`, `exp` (configured issuer and audience, Unix seconds
of the clock reading twice, Unix seconds of clock reading plus max-age), every
other key reads as in the payload; `Sign` returns that token with the signature
whenever the signing primitive succeeds, and its error otherwise.  (On a nil
map there is no token: `Sign` panics at the first assignment.) -/
theorem C6_sign_injects_claims (R : RS256) (lib : Lib) (payload : GoMap Value)
    (key : PrivateKey) (hk : R.privateKey = some key) :
    (R.Sign lib none).1 = .panic "assignment to entry in nil map" ∧
    ∃ header claims,
      (∀ k, mapGet claims k =
        if k = "iss" then some (.str R.issuer)
        else if k = "aud" then some (.str R.audience)
        else if k = "auth_time" then some (.int64 R.timegen.Now.Unix)
        else if k = "iat" then some (.int64 R.timegen.Now.Unix)
        else if k = "exp" then some (.int64 (R.timegen.Now.Add R.maxAge).Unix)
        else mapGet payload k) ∧
      (∀ sig, lib.Sign header claims key = .ok sig →
        (R.Sign lib (some payload)).1 =
          .ok (.compact header claims sig, R.timegen.Now.Add R.maxAge)) ∧
      (∀ e, lib.Sign header claims key = .error e →
        (R.Sign lib (some payload)).1 = .err e) := by
  refine ⟨by simp [RS256.Sign, hk],
    (R.buildToken (R.injectClaims R.timegen.Now (R.timegen.Now.Add R.maxAge)
      payload)).Header, R.injectClaims R.timegen.Now (R.timegen.Now.Add R.maxAge) payload,
      ?_, ?_, ?_⟩
  · intro k
    rw [mapGet_injectClaims R R.timegen.Now (R.timegen.Now.Add R.maxAge) payload k]
    by_cases h1 : k = "iss"
    · subst h1; simp
    by_cases h2 : k = "aud"
    · subst h2; simp
    by_cases h3 : k = "auth_time"
    · subst h3; simp
    by_cases h4 : k = "iat"
    · subst h4; simp
    simp [h1, h2, h3, h4]
  · intro sig hs
    rw [Sign_eq R lib payload key hk, hs]
  · intro e hs
    rw [Sign_eq R lib payload key hk, hs]

/-- C6 at the example instance, with a payload that tries to set `iss`. -/
theorem C6_sign_injects_claims_witness :
    demoRS256.privateKey = some ⟨1⟩ ∧
    ∃ header claims,
      mapGet claims "iss" = some (.str "svc-a") ∧
      mapGet claims "exp" = some (.int64 1700003600) ∧
      mapGet claims "user_id" = some (.int 42) ∧
      (demoRS256.Sign demoLib (some [("user_id", .int 42), ("iss", .str "other")])).1 =
        .ok (.compact header claims "signed", ⟨1700003600000000000⟩) := by
  refine ⟨rfl, ?_⟩
  obtain ⟨_, header, claims, hc, hs, _⟩ :=
    C6_sign_injects_claims demoRS256 demoLib [("user_id", .int 42), ("iss", .str "other")] ⟨1⟩ rfl
  refine ⟨header, claims, ?_, ?_, ?_, ?_⟩
  · rw [hc]; rfl
  · rw [hc]; decide
  · rw [hc]; decide
  · exact hs "signed" rfl

/-! ## Expiry returned by Sign against the `exp` claim -/

theorem toInt64_intCast (n : Int) (h : n.natAbs < 2 ^ 63) : toInt64 (n : ℚ) = n := by
  have h1 : -(2 : Int) ^ 63 ≤ n ∧ n < (2 : Int) ^ 63 := by omega
  have h2 : Int.tdiv (n : ℚ).num (n : ℚ).den = n := by simp
  simp only [toInt64, h2, if_pos h1]

theorem float64OfInt_small (n : Int) (h : n.natAbs < 2 ^ 53) : float64OfInt n = (n : ℚ) := by
  simp only [float64OfInt, if_pos h]

/-- A whole number of seconds survives `Unix` followed by `time.Unix`. -/
theorem ofUnix_Unix_of_whole (t : Time) (h : t.ns % Second = 0) : Time.ofUnix t.Unix = t := by
  obtain ⟨ns⟩ := t
  simp only [Time.ofUnix, Time.Unix, Time.mk.injEq] at h ⊢
  have := Int.ediv_add_emod ns Second
  rw [h] at this
  linarith [mul_comm (ns / Second) Second]

/-- C10 (as amended): with the repository's clock and a max-age that is a whole
number of seconds, the expiry `Sign` returns is the instant `time.Unix(exp, 0)`
of the `exp` claim it writes, namely the clock reading truncated to whole
seconds plus max-age; and when `exp` is below 2^53 in magnitude, the
expiry-extraction step of `Parse` on the decoded token yields that same
instant. -/
theorem C10_sign_expiry_matches_exp_claim (wall : Time) (R : RS256) (lib : Lib)
    (payload : GoMap Value) (key : PrivateKey)
    (hclock : R.timegen = NewTimeGenerator wall) (hage : R.maxAge % Second = 0)
    (hk : R.privateKey = some key) :
    ∃ header claims exp,
      mapGet claims "exp" = some (.int64 exp) ∧
      Time.ofUnix exp = wall.TruncateSecond.Add R.maxAge ∧
      (∀ sig, lib.Sign header claims key = .ok sig →
        (R.Sign lib (some payload)).1 = .ok (.compact header claims sig, Time.ofUnix exp) ∧
        (exp.natAbs < 2 ^ 53 →
          ∃ token, ParseUnverified (.compact header claims sig) = .ok token ∧
            extractExpiry token = .ok (token, Time.ofUnix exp))) ∧
      (∀ e, lib.Sign header claims key = .error e → (R.Sign lib (some payload)).1 = .err e) := by
  have hnow : R.timegen.Now = wall.TruncateSecond := by rw [hclock]; rfl
  have hwhole : (wall.TruncateSecond.Add R.maxAge).ns % Second = 0 := by
    simp only [Time.Add, Time.TruncateSecond, Second] at hage ⊢
    omega
  have hexp : Time.ofUnix (wall.TruncateSecond.Add R.maxAge).Unix
      = wall.TruncateSecond.Add R.maxAge := ofUnix_Unix_of_whole _ hwhole
  refine ⟨(R.buildToken (R.injectClaims R.timegen.Now (R.timegen.Now.Add R.maxAge)
      payload)).Header, R.injectClaims R.timegen.Now (R.timegen.Now.Add R.maxAge) payload,
      (wall.TruncateSecond.Add R.maxAge).Unix, ?_, hexp, ?_, ?_⟩
  · rw [mapGet_injectClaims, hnow]; simp
  · intro sig hs
    refine ⟨?_, ?_⟩
    · rw [Sign_eq R lib payload key hk, hs, hexp, hnow]
    · intro hsmall
      have hsmall2 : (wall.TruncateSecond.Add R.maxAge).Unix.natAbs < 2 ^ 63 :=
        lt_trans hsmall (by norm_num)
      refine ⟨_, rfl, ?_⟩
      simp only [extractExpiry, mapGet_jsonDecodeMap, mapGet_injectClaims, hnow]
      simp [jsonRoundTrip, expiryOfClaim, float64OfInt_small _ hsmall,
        toInt64_intCast _ hsmall2, Time.UTC]
  · intro e hs
    rw [Sign_eq R lib payload key hk, hs]

/-- C10 at the example instance: clock 1700000000.25 s, max-age one hour. -/
theorem C10_sign_expiry_matches_exp_claim_witness :
    demoRS256.timegen = NewTimeGenerator ⟨1700000000250000000⟩ ∧
    demoRS256.maxAge % Second = 0 ∧
    demoRS256.privateKey = some ⟨1⟩ ∧
    ∃ header claims,
      mapGet claims "exp" = some (.int64 1700003600) ∧
      (demoRS256.Sign demoLib (some [("user_id", .int 42)])).1 =
        .ok (.compact header claims "signed", Time.ofUnix 1700003600) ∧
      ∃ token, ParseUnverified (.compact header claims "signed") = .ok token ∧
        extractExpiry token = .ok (token, Time.ofUnix 1700003600) := by
  refine ⟨rfl, by decide, rfl, ?_⟩
  obtain ⟨header, claims, exp, h1, h2, h3, _⟩ :=
    C10_sign_expiry_matches_exp_claim ⟨1700000000250000000⟩ demoRS256 demoLib
      [("user_id", .int 42)] ⟨1⟩ rfl (by decide) rfl
  have hexp : exp = 1700003600 := by
    have h4 : (Time.ofUnix exp).ns = 1700003600000000000 := by rw [h2]; decide
    simp only [Time.ofUnix, Second] at h4
    omega
  subst hexp
  obtain ⟨h5, h6⟩ := h3 "signed" rfl
  exact ⟨header, claims, h1, h5, h6 (by decide)⟩

/-- C10 fails as stated.  With a max-age of 1.5 s the expiry `Sign` returns
(1700000001.5 s) is not the instant of the `exp` claim it writes (1700000001 s),
which is what the extraction step of `Parse` reads back.  With a clock at 2^53 s
the `exp` claim 2^53 + 1 decodes to the `float64` 2^53, one second early. -/
theorem C10_counterexample :
    ((demoFractional.Sign demoLib (some [])).1 =
      .ok (.compact [("kid", .str "kid-1"), ("typ", .str "JWT"), ("alg", .str "RS256")]
          [("exp", .int64 1700000001), ("iat", .int64 1700000000),
           ("auth_time", .int64 1700000000), ("aud", .str "svc-b"), ("iss", .str "svc-a")]
          "signed", ⟨1700000001500000000⟩) ∧
     Time.ofUnix 1700000001 ≠ ⟨1700000001500000000⟩ ∧
     (mapGet (jsonDecodeMap [("exp", .int64 1700000001)]) "exp").map expiryOfClaim
       = some ⟨1700000001000000000⟩) ∧
    ((demoFarFuture.Sign demoLib (some [])).1 =
      .ok (.compact [("kid", .str "kid-1"), ("typ", .str "JWT"), ("alg", .str "RS256")]
          [("exp", .int64 9007199254740993), ("iat", .int64 9007199254740992),
           ("auth_time", .int64 9007199254740992), ("aud", .str "svc-b"),
           ("iss", .str "svc-a")]
          "signed", Time.ofUnix 9007199254740993) ∧
     (mapGet (jsonDecodeMap [("exp", .int64 9007199254740993)]) "exp").map expiryOfClaim
       = some (Time.ofUnix 9007199254740992)) := by
  refine ⟨⟨by decide, by decide, ?_⟩, by decide, ?_⟩
  · decide
  · decide

/-! ## Error messages against the literal `Token is expired` -/

/-- A message that starts with a text beginning in `i` is not
`Token is expired`. -/
theorem append_ne_expired (p t : String) (hp : p.data.head? = some 'i') :
    p ++ t ≠ "Token is expired" := by
  intro e
  have h := congrArg (fun s => s.data.head?) e
  simp only [String.data_append] at h
  cases hd : p.data with
  | nil => simp [hd] at hp
  | cons c r =>
    rw [hd] at hp h
    simp only [List.head?_cons, Option.some.injEq, List.cons_append] at hp h
    subst hp
    exact absurd h (by decide)

theorem bracketed_ne_expired (p x : String) (hp : p.data.head? = some 'i') :
    p ++ x ++ "]" ≠ "Token is expired" := by
  apply append_ne_expired
  simp only [String.data_append]
  cases hd : p.data with
  | nil => simp [hd] at hp
  | cons c r => rw [hd] at hp; simpa using hp

theorem Malformed.Error_ne_expired (why : Malformed) : why.Error ≠ "Token is expired" := by
  cases why with
  | segments => decide
  | bearer => decide
  | base64 n => exact append_ne_expired _ _ rfl
  | jsonSyntax d => exact append_ne_expired _ _ rfl
  | jsonEOF => decide
  | jsonType d =>
    intro e
    have h := congrArg (fun s => s.data.head?) e
    simp [Malformed.Error, String.data_append] at h

theorem ParseUnverified_error_ne_expired (ts : TokenString) (e : String)
    (h : ParseUnverified ts = .error e) : e ≠ "Token is expired" := by
  cases ts with
  | malformed why =>
    simp only [ParseUnverified, Except.error.injEq] at h
    subst h
    exact why.Error_ne_expired
  | compact header claims sig =>
    simp only [ParseUnverified] at h
    split at h
    · split at h
      · cases h
      · simp only [Except.error.injEq] at h; subst h; decide
    · simp only [Except.error.injEq] at h; subst h; decide

theorem validateHeaders_ne_expired (R : RS256) (lib : Lib) (token : Token) (e : String)
    (h : R.validateHeaders lib token = some e) : e ≠ "Token is expired" := by
  simp only [RS256.validateHeaders] at h
  split at h
  · simp only [Option.some.injEq] at h; subst h
    exact bracketed_ne_expired _ _ rfl
  · split at h
    · simp only [Option.some.injEq] at h; subst h
      exact bracketed_ne_expired _ _ rfl
    · cases h

/-! ## Parse, case by case -/

theorem Parse_of_decode_error (R : RS256) (lib : Lib) (ts : TokenString) (ig : Bool)
    (n1 n2 : Int) (e : String) (h : ParseUnverified ts = .error e) :
    R.Parse lib ts ig n1 n2 = (.err e, R) := by
  have hne := ParseUnverified_error_ne_expired ts e h
  simp [RS256.Parse, jwtParse, h, hne]

theorem Parse_of_keyFunc_err (R R2 : RS256) (lib : Lib) (ts : TokenString) (ig : Bool)
    (n1 n2 : Int) (token : Token) (e : String) (h : ParseUnverified ts = .ok token)
    (hk : RS256.keyFunc lib ig n1 token R = (.err e, R2))
    (hne : e ≠ "Token is expired" ∨ ig = false) :
    R.Parse lib ts ig n1 n2 = (.err e, R2) := by
  simp only [RS256.Parse, jwtParse, h, hk]
  rcases hne with hne | hig
  · simp [hne]
  · subst hig
    by_cases he : e = "Token is expired" <;> simp [he]

theorem Parse_of_keyFunc_panic (R R2 : RS256) (lib : Lib) (ts : TokenString) (ig : Bool)
    (n1 n2 : Int) (token : Token) (p : String) (h : ParseUnverified ts = .ok token)
    (hk : RS256.keyFunc lib ig n1 token R = (.panic p, R2)) :
    R.Parse lib ts ig n1 n2 = (.panic p, R2) := by
  simp only [RS256.Parse, jwtParse, h, hk]

/-- After the key function returned a key: the library's own validation, the
string test on its error, and the expiry extraction. -/
theorem Parse_of_keyFunc_ok (R R2 : RS256) (lib : Lib) (ts : TokenString) (ig : Bool)
    (n1 n2 : Int) (token : Token) (key : PublicKey) (h : ParseUnverified ts = .ok token)
    (hk : RS256.keyFunc lib ig n1 token R = (.ok key, R2)) :
    R.Parse lib ts ig n1 n2 =
      (if verifySignature lib ts key = true then
        match MapClaimsValid token.Claims n2 with
        | none => (extractExpiry { token with Signature := ts.signature, Valid := true }, R2)
        | some e =>
          if e = "Token is expired" ∧ ig = true then
            (extractExpiry { token with Signature := ts.signature }, R2)
          else (.err e, R2)
      else (.err "crypto/rsa: verification error", R2)) := by
  simp only [RS256.Parse, jwtParse, h, hk]
  by_cases hv : verifySignature lib ts key = true
  · simp only [hv, if_true]
    cases hm : MapClaimsValid token.Claims n2 with
    | none => simp
    | some e =>
      by_cases he : e = "Token is expired"
      · subst he
        cases ig <;> simp
      · simp [he]
  · simp only [hv]
    simp

/-- What a successful `ParseUnverified` of a compact token string returns. -/
theorem ParseUnverified_ok (header claims : GoMap Value) (sig : String) (token : Token)
    (h : ParseUnverified (.compact header claims sig) = .ok token) :
    ∃ a m, mapGet (jsonDecodeMap header) "alg" = some (.str a) ∧
      GetSigningMethod a = some m ∧
      token = { Method := some m, Header := jsonDecodeMap header,
                Claims := jsonDecodeMap claims, Signature := "", Valid := false } := by
  simp only [ParseUnverified] at h
  split at h
  · rename_i method hm
    split at h
    · rename_i m hg
      simp only [Except.ok.injEq] at h
      exact ⟨method, m, hm, hg, h.symm⟩
    · cases h
  · cases h

theorem jsonRoundTrip_eq_str (v : Value) (s : String) :
    jsonRoundTrip v = .str s ↔ v = .str s := by
  cases v <;> simp [jsonRoundTrip]

theorem mapGet_decoded_str (m : GoMap Value) (k s : String) :
    mapGet (jsonDecodeMap m) k = some (.str s) ↔ mapGet m k = some (.str s) := by
  rw [mapGet_jsonDecodeMap]
  cases mapGet m k with
  | none => simp
  | some v => simp [jsonRoundTrip_eq_str]

theorem keyFunc_of_header_error (R : RS256) (lib : Lib) (ig : Bool) (n1 : Int) (token : Token)
    (e : String) (h : R.validateHeaders lib token = some e) :
    RS256.keyFunc lib ig n1 token R = (.err e, R) := by
  simp only [RS256.keyFunc, h]

theorem keyFunc_of_claims_error (R : RS256) (lib : Lib) (ig : Bool) (n1 : Int) (token : Token)
    (e : String) (hh : R.validateHeaders lib token = none)
    (h : R.validateClaims lib token.Claims ig n1 = some e) :
    RS256.keyFunc lib ig n1 token R = (.err e, R) := by
  simp only [RS256.keyFunc, hh, h]

theorem keyFunc_of_valid (R : RS256) (lib : Lib) (ig : Bool) (n1 : Int) (token : Token)
    (kid : String) (hh : R.validateHeaders lib token = none)
    (hc : R.validateClaims lib token.Claims ig n1 = none)
    (hkid : mapGet token.Header "kid" = some (.str kid)) :
    RS256.keyFunc lib ig n1 token R = R.getPublicKey lib kid := by
  simp only [RS256.keyFunc, hh, hc, hkid]

/-- With a non-RSA method the header check fails, naming the algorithm. -/
theorem validateHeaders_non_rsa (R : RS256) (lib : Lib) (token : Token) (a : String)
    (m : SigningMethod) (hm : token.Method = some m) (hr : m.isRSA = false)
    (ha : mapGet token.Header "alg" = some (.str a)) :
    R.validateHeaders lib token = some ("invalid signing method [" ++ a ++ "]") := by
  simp [RS256.validateHeaders, hm, hr, ha, fmtV]

/-- The issuer and audience checks pass exactly when both claims are the
configured strings. -/
theorem checkIssuerAudience_eq_none (R : RS256) (lib : Lib) (claims : GoMap Value) :
    R.checkIssuerAudience lib claims = none ↔
      mapGet claims "iss" = some (.str R.issuer) ∧
      mapGet claims "aud" = some (.str R.audience) := by
  have hi : (match mapGet claims "iss" with
      | some (.str issuer) => decide (issuer = R.issuer)
      | _ => false) = true ↔ mapGet claims "iss" = some (.str R.issuer) := by
    split
    · rename_i issuer heq
      simp [heq]
    · rename_i hne
      constructor
      · intro h; cases h
      · intro h; exact absurd h (hne R.issuer)
  have ha : (match mapGet claims "aud" with
      | some (.str audience) => decide (audience = R.audience)
      | _ => false) = true ↔ mapGet claims "aud" = some (.str R.audience) := by
    split
    · rename_i audience heq
      simp [heq]
    · rename_i hne
      constructor
      · intro h; cases h
      · intro h; exact absurd h (hne R.audience)
  simp only [RS256.checkIssuerAudience]
  split
  · rename_i h1
    simp only [Bool.not_eq_true', ← Bool.not_eq_true] at h1
    simp only [false_iff, reduceCtorEq]
    intro h
    exact h1 (hi.mpr h.1)
  · rename_i h1
    split
    · rename_i h2
      simp only [Bool.not_eq_true', ← Bool.not_eq_true] at h2
      simp only [false_iff, reduceCtorEq]
      intro h
      exact h2 (ha.mpr h.2)
    · rename_i h2
      simp only [Bool.not_eq_true', Bool.not_eq_false] at h1 h2
      simp only [true_iff]
      exact ⟨hi.mp h1, ha.mp h2⟩

theorem checkIssuerAudience_ne_expired (R : RS256) (lib : Lib) (claims : GoMap Value)
    (e : String) (h : R.checkIssuerAudience lib claims = some e) : e ≠ "Token is expired" := by
  simp only [RS256.checkIssuerAudience] at h
  split at h
  · simp only [Option.some.injEq] at h; subst h
    exact bracketed_ne_expired _ _ rfl
  · split at h
    · simp only [Option.some.injEq] at h; subst h
      exact bracketed_ne_expired _ _ rfl
    · cases h

/-- A claim set whose issuer or audience is not the configured string fails
`validateClaims`, with a message that `Parse` returns. -/
theorem validateClaims_mismatch (R : RS256) (lib : Lib) (claims : GoMap Value) (ig : Bool)
    (n1 : Int)
    (h : mapGet claims "iss" ≠ some (.str R.issuer) ∨
      mapGet claims "aud" ≠ some (.str R.audience)) :
    ∃ e, R.validateClaims lib claims ig n1 = some e ∧ (e ≠ "Token is expired" ∨ ig = false) := by
  have hsome : ∃ e, R.checkIssuerAudience lib claims = some e := by
    cases hc : R.checkIssuerAudience lib claims with
    | some e => exact ⟨e, rfl⟩
    | none =>
      have := (checkIssuerAudience_eq_none R lib claims).mp hc
      rcases h with h | h
      · exact absurd this.1 h
      · exact absurd this.2 h
  obtain ⟨e, he⟩ := hsome
  cases ig with
  | true =>
    exact ⟨e, by simp [RS256.validateClaims, he],
      Or.inl (checkIssuerAudience_ne_expired R lib claims e he)⟩
  | false =>
    cases hv : MapClaimsValid claims n1 with
    | some e0 => exact ⟨e0, by simp [RS256.validateClaims, hv], Or.inr rfl⟩
    | none => exact ⟨e, by simp [RS256.validateClaims, hv, he], Or.inr rfl⟩

/-! ## Header validation -/

/-- No verifier accepts a token that `Sign` returned: its header has `typ`,
the header check reads `type`. -/
theorem Parse_Sign_rejected (R R2 : RS256) (lib : Lib) (payload0 : Option (GoMap Value))
    (tokenString : TokenString) (expiry : Time) (ig : Bool) (n1 n2 : Int)
    (h : (R.Sign lib payload0).1 = .ok (tokenString, expiry)) :
    R2.Parse lib tokenString ig n1 n2 = (.err "invalid signing type [JWT]", R2) := by
  cases hk : R.privateKey with
  | none => simp [RS256.Sign, hk] at h
  | some key =>
    cases payload0 with
    | none => simp [RS256.Sign, hk] at h
    | some payload =>
      rw [Sign_eq R lib payload key hk] at h
      split at h
      · rename_i sig hs
        simp only [Result.ok.injEq, Prod.mk.injEq] at h
        obtain ⟨h1, _⟩ := h
        subst h1
        have hd : ParseUnverified (.compact
            (R.buildToken (R.injectClaims R.timegen.Now (R.timegen.Now.Add R.maxAge)
              payload)).Header
            (R.injectClaims R.timegen.Now (R.timegen.Now.Add R.maxAge) payload) sig) =
            .ok { Method := some (.RSA "RS256"),
                  Header := jsonDecodeMap (R.buildToken (R.injectClaims R.timegen.Now
                    (R.timegen.Now.Add R.maxAge) payload)).Header,
                  Claims := jsonDecodeMap (R.injectClaims R.timegen.Now
                    (R.timegen.Now.Add R.maxAge) payload),
                  Signature := "", Valid := false } := rfl
        refine Parse_of_keyFunc_err R2 R2 lib _ ig n1 n2 _ _ hd ?_ (Or.inl (by decide))
        exact keyFunc_of_header_error R2 lib ig n1 _ _ rfl
      · cases h

/-- C1 (the code rejects its own tokens): at the example instance `Sign`
returns the token `demoSigned` with expiry 1700003600 s, and `Parse` of that
token one second after issuance, with `ignoreExpiration = false` and the
matching static public key, returns the error `invalid signing type [JWT]`. -/
theorem C1_round_trip_rejected :
    (demoRS256.Sign demoLib (some [("user_id", .int 42)])).1 =
      .ok (demoSigned, Time.ofUnix 1700003600) ∧
    (demoRS256.Parse demoLib demoSigned false 1700000001 1700000001).1 =
      .err "invalid signing type [JWT]" := by
  constructor
  · decide
  · decide

/-- C5 (the header check reads `type`, not `typ`): an RS256 header whose `typ`
is `JWT` fails header validation, and one whose `typ` is `other` passes as soon
as a field `type` holds `JWT`. -/
theorem C5_typ_not_checked :
    demoRS256.validateHeaders demoLib
        (demoToken [("alg", .str "RS256"), ("typ", .str "JWT"), ("kid", .str "kid-1")]) =
      some "invalid signing type [JWT]" ∧
    demoRS256.validateHeaders demoLib
        (demoToken [("alg", .str "RS256"), ("typ", .str "other"), ("type", .str "JWT")]) =
      none := by
  constructor
  · decide
  · decide

/-- C4: a token whose header names a registered signing method that is not
of the RSA family (HMAC, none, ECDSA, RSA-PSS) decodes to a token that fails
header validation, and `Parse` returns the error `invalid signing method [alg]`
whatever the claims, the signature, `ignoreExpiration` and the clock; the
verifier is left unchanged. -/
theorem C4_non_rsa_algorithm_rejected (R : RS256) (lib : Lib) (header claims : GoMap Value)
    (sig a : String) (m : SigningMethod) (ig : Bool) (n1 n2 : Int)
    (ha : mapGet header "alg" = some (.str a)) (hm : GetSigningMethod a = some m)
    (hr : m.isRSA = false) :
    (∃ token, ParseUnverified (.compact header claims sig) = .ok token ∧
      R.validateHeaders lib token = some ("invalid signing method [" ++ a ++ "]")) ∧
    R.Parse lib (.compact header claims sig) ig n1 n2 =
      (.err ("invalid signing method [" ++ a ++ "]"), R) := by
  have ha2 : mapGet (jsonDecodeMap header) "alg" = some (.str a) :=
    (mapGet_decoded_str header "alg" a).mpr ha
  have hd : ParseUnverified (.compact header claims sig) =
      .ok { Method := some m, Header := jsonDecodeMap header,
            Claims := jsonDecodeMap claims, Signature := "", Valid := false } := by
    simp only [ParseUnverified, ha2, hm]
  have hv := validateHeaders_non_rsa R lib
    { Method := some m, Header := jsonDecodeMap header,
      Claims := jsonDecodeMap claims, Signature := "", Valid := false } a m rfl hr ha2
  refine ⟨⟨_, hd, hv⟩, ?_⟩
  exact Parse_of_keyFunc_err R R lib _ ig n1 n2 _ _ hd
    (keyFunc_of_header_error R lib ig n1 _ _ hv)
    (Or.inl (bracketed_ne_expired _ _ rfl))

/-- C4 at an HS256 token carrying the mark the verifying key accepts. -/
theorem C4_non_rsa_algorithm_rejected_witness :
    mapGet [("alg", Value.str "HS256"), ("type", .str "JWT"), ("kid", .str "kid-1")] "alg" =
      some (.str "HS256") ∧
    GetSigningMethod "HS256" = some (.HMAC "HS256") ∧
    (SigningMethod.HMAC "HS256").isRSA = false ∧
    demoLib.Verify [("alg", .str "HS256"), ("type", .str "JWT"), ("kid", .str "kid-1")]
      [("iss", .str "svc-a"), ("aud", .str "svc-b"), ("exp", .float64 1700003600)]
      "signed" ⟨1⟩ = true ∧
    (demoRS256.Parse demoLib
      (.compact [("alg", .str "HS256"), ("type", .str "JWT"), ("kid", .str "kid-1")]
        [("iss", .str "svc-a"), ("aud", .str "svc-b"), ("exp", .float64 1700003600)]
        "signed") true 1700000001 1700000001).1 = .err "invalid signing method [HS256]" := by
  refine ⟨by decide, by decide, rfl, rfl, ?_⟩
  rw [(C4_non_rsa_algorithm_rejected demoRS256 demoLib
    [("alg", .str "HS256"), ("type", .str "JWT"), ("kid", .str "kid-1")]
    [("iss", .str "svc-a"), ("aud", .str "svc-b"), ("exp", .float64 1700003600)]
    "signed" "HS256" (.HMAC "HS256") true 1700000001 1700000001 (by decide) (by decide) rfl).2]
  decide

/-! ## Claim validation -/

/-- C3: a token whose `iss` claim is not the configured issuer as a string, or
whose `aud` claim is not the configured audience as a string (absent, of
another type, or another string), makes `Parse` return an error for both
values of `ignoreExpiration`, whatever the header, the signature and the
clock; the verifier is left unchanged. -/
theorem C3_issuer_audience_mismatch_rejected (R : RS256) (lib : Lib)
    (header claims : GoMap Value) (sig : String) (ig : Bool) (n1 n2 : Int)
    (h : mapGet claims "iss" ≠ some (.str R.issuer) ∨
      mapGet claims "aud" ≠ some (.str R.audience)) :
    ∃ msg, R.Parse lib (.compact header claims sig) ig n1 n2 = (.err msg, R) := by
  cases hd : ParseUnverified (.compact header claims sig) with
  | error e => exact ⟨e, Parse_of_decode_error R lib _ ig n1 n2 e hd⟩
  | ok token =>
    cases hh : R.validateHeaders lib token with
    | some e =>
      exact ⟨e, Parse_of_keyFunc_err R R lib _ ig n1 n2 token e hd
        (keyFunc_of_header_error R lib ig n1 token e hh)
        (Or.inl (validateHeaders_ne_expired R lib token e hh))⟩
    | none =>
      obtain ⟨a, m, _, _, htok⟩ := ParseUnverified_ok header claims sig token hd
      have hcl : token.Claims = jsonDecodeMap claims := by rw [htok]
      have h2 : mapGet token.Claims "iss" ≠ some (.str R.issuer) ∨
          mapGet token.Claims "aud" ≠ some (.str R.audience) := by
        rw [hcl]
        rcases h with h | h
        · exact Or.inl (fun e => h ((mapGet_decoded_str claims "iss" R.issuer).mp e))
        · exact Or.inr (fun e => h ((mapGet_decoded_str claims "aud" R.audience).mp e))
      obtain ⟨e, he, hne⟩ := validateClaims_mismatch R lib token.Claims ig n1 h2
      exact ⟨e, Parse_of_keyFunc_err R R lib _ ig n1 n2 token e hd
        (keyFunc_of_claims_error R lib ig n1 token e hh he) hne⟩

/-- C3 at a correctly signed, unexpired token whose audience is `svc-c`. -/
theorem C3_issuer_audience_mismatch_rejected_witness :
    (mapGet [("iss", Value.str "svc-a"), ("aud", .str "svc-c"), ("exp", .float64 1700003600)]
        "iss" ≠ some (.str demoRS256.issuer) ∨
      mapGet [("iss", Value.str "svc-a"), ("aud", .str "svc-c"), ("exp", .float64 1700003600)]
        "aud" ≠ some (.str demoRS256.audience)) ∧
    demoLib.Verify [("alg", .str "RS256"), ("type", .str "JWT"), ("kid", .str "kid-1")]
      [("iss", .str "svc-a"), ("aud", .str "svc-c"), ("exp", .float64 1700003600)]
      "signed" ⟨1⟩ = true ∧
    ∃ msg, demoRS256.Parse demoLib
      (.compact [("alg", .str "RS256"), ("type", .str "JWT"), ("kid", .str "kid-1")]
        [("iss", .str "svc-a"), ("aud", .str "svc-c"), ("exp", .float64 1700003600)]
        "signed") true 1700000001 1700000001 = (.err msg, demoRS256) :=
  ⟨Or.inr (by decide), rfl,
    C3_issuer_audience_mismatch_rejected demoRS256 demoLib
      [("alg", .str "RS256"), ("type", .str "JWT"), ("kid", .str "kid-1")]
      [("iss", .str "svc-a"), ("aud", .str "svc-c"), ("exp", .float64 1700003600)]
      "signed" true 1700000001 1700000001 (Or.inr (by decide))⟩

/-! ## Expiry -/

/-- Claims whose `exp` has a non-zero whole-second part before `now` fail
`Valid()`. -/
theorem MapClaimsValid_of_expired (claims : GoMap Value) (x : ℚ) (now : Int)
    (hexp : mapGet claims "exp" = some (.float64 x)) (h0 : toInt64 x ≠ 0)
    (hpast : toInt64 x < now) : ∃ e, MapClaimsValid claims now = some e := by
  have hv : VerifyExpiresAt claims now false = false := by
    simp [VerifyExpiresAt, hexp, verifyExp, h0, hpast]
  simp only [MapClaimsValid, hv, if_true]
  by_cases h3 : VerifyNotBefore claims now false = false
  · simp [h3]
  · by_cases h2 : VerifyIssuedAt claims now false = false
    · simp [h2, h3]
    · simp [h2, h3]

/-- Expired claims that pass the issued-at and not-before checks fail
`Valid()` with the message `Token is expired`. -/
theorem MapClaimsValid_only_expired (claims : GoMap Value) (x : ℚ) (now : Int)
    (hexp : mapGet claims "exp" = some (.float64 x)) (h0 : toInt64 x ≠ 0)
    (hpast : toInt64 x < now) (hiat : VerifyIssuedAt claims now false = true)
    (hnbf : VerifyNotBefore claims now false = true) :
    MapClaimsValid claims now = some "Token is expired" := by
  have hv : VerifyExpiresAt claims now false = false := by
    simp [VerifyExpiresAt, hexp, verifyExp, h0, hpast]
  simp [MapClaimsValid, hv, hiat, hnbf]

/-- C2 (as amended): let a token decode, pass header validation, carry the
configured issuer and audience, and have a numeric `exp` whose whole-second
part is non-zero and before both clock readings.  Then `Parse` with
`ignoreExpiration = false` returns an error.  If moreover `kid` is a string for
which key resolution returns a key under which the signature verifies, and
`iat` and `nbf` are not in the future, `Parse` with `ignoreExpiration = true`
returns no error, the token, and the expiry `time.Unix(int64(exp), 0)`. -/
theorem C2_expiry_enforced (R : RS256) (lib : Lib) (header claims : GoMap Value)
    (sig : String) (token : Token) (x : ℚ) (n1 n2 : Int)
    (hd : ParseUnverified (.compact header claims sig) = .ok token)
    (hh : R.validateHeaders lib token = none)
    (hiss : mapGet token.Claims "iss" = some (.str R.issuer))
    (haud : mapGet token.Claims "aud" = some (.str R.audience))
    (hexp : mapGet token.Claims "exp" = some (.float64 x))
    (h0 : toInt64 x ≠ 0) (hpast1 : toInt64 x < n1) (hpast2 : toInt64 x < n2) :
    (∃ msg, R.Parse lib (.compact header claims sig) false n1 n2 = (.err msg, R)) ∧
    (∀ kid key R2, mapGet token.Header "kid" = some (.str kid) →
      R.getPublicKey lib kid = (.ok key, R2) →
      verifySignature lib (.compact header claims sig) key = true →
      VerifyIssuedAt token.Claims n2 false = true →
      VerifyNotBefore token.Claims n2 false = true →
      R.Parse lib (.compact header claims sig) true n1 n2 =
        (.ok ({ token with Signature := sig }, Time.ofUnix (toInt64 x)), R2)) := by
  constructor
  · obtain ⟨e, he⟩ := MapClaimsValid_of_expired token.Claims x n1 hexp h0 hpast1
    have hc : R.validateClaims lib token.Claims false n1 = some e := by
      simp [RS256.validateClaims, he]
    exact ⟨e, Parse_of_keyFunc_err R R lib _ false n1 n2 token e hd
      (keyFunc_of_claims_error R lib false n1 token e hh hc) (Or.inr rfl)⟩
  · intro kid key R2 hkid hkey hsig hiat hnbf
    have hia : R.checkIssuerAudience lib token.Claims = none :=
      (checkIssuerAudience_eq_none R lib token.Claims).mpr ⟨hiss, haud⟩
    have hc : R.validateClaims lib token.Claims true n1 = none := by
      simp [RS256.validateClaims, hia]
    have hk : RS256.keyFunc lib true n1 token R = (.ok key, R2) := by
      rw [keyFunc_of_valid R lib true n1 token kid hh hc hkid, hkey]
    rw [Parse_of_keyFunc_ok R R2 lib _ true n1 n2 token key hd hk, if_pos hsig,
      MapClaimsValid_only_expired token.Claims x n2 hexp h0 hpast2 hiat hnbf]
    simp [extractExpiry, hexp, expiryOfClaim, Time.UTC, TokenString.signature]

/-- C2 at a signed token that expired at 1000 s, parsed at 1700000001 s. -/
theorem C2_expiry_enforced_witness :
    ParseUnverified (.compact acceptedHeader (demoClaims (.float64 1000) []) "signed") =
      .ok (acceptedToken (demoClaims (.float64 1000) [])) ∧
    toInt64 1000 ≠ 0 ∧ toInt64 1000 < 1700000001 ∧
    (∃ msg, demoRS256.Parse demoLib
      (.compact acceptedHeader (demoClaims (.float64 1000) []) "signed")
      false 1700000001 1700000001 = (.err msg, demoRS256)) ∧
    demoRS256.Parse demoLib (.compact acceptedHeader (demoClaims (.float64 1000) []) "signed")
      true 1700000001 1700000001 =
      (.ok ({ acceptedToken (demoClaims (.float64 1000) []) with Signature := "signed" },
        Time.ofUnix 1000), demoRS256) := by
  have h := C2_expiry_enforced demoRS256 demoLib acceptedHeader
    (demoClaims (.float64 1000) []) "signed" (acceptedToken (demoClaims (.float64 1000) []))
    1000 1700000001 1700000001 rfl (by decide) (by decide) (by decide) (by decide)
    (by decide) (by decide) (by decide)
  refine ⟨rfl, by decide, by decide, h.1, ?_⟩
  have h2 := h.2 "kid-1" ⟨1⟩ demoRS256 (by decide) rfl (by decide) (by decide) (by decide)
  rw [h2]
  have : toInt64 1000 = 1000 := by decide
  rw [this]

/-- C2 fails as stated.  A signed token with valid header, issuer and audience
that expired at 1000 s but is not valid before 5000000000 s is refused with
`ignoreExpiration = true`; a signed token whose `exp` is 0 (1970) is accepted
with `ignoreExpiration = false`; and a signed, expired token whose header has
no `kid` makes `Parse` panic with `ignoreExpiration = true`. -/
theorem C2_counterexample :
    (demoRS256.validateHeaders demoLib
        (acceptedToken (demoClaims (.float64 1000) [("nbf", .float64 5000000000)])) = none ∧
      verifySignature demoLib
        (.compact acceptedHeader (demoClaims (.float64 1000) [("nbf", .float64 5000000000)])
          "signed") ⟨1⟩ = true ∧
      (demoRS256.Parse demoLib
        (.compact acceptedHeader (demoClaims (.float64 1000) [("nbf", .float64 5000000000)])
          "signed") true 1700000001 1700000001).1 = .err "Token is not valid yet") ∧
    (demoRS256.validateHeaders demoLib (acceptedToken (demoClaims (.float64 0) [])) = none ∧
      verifySignature demoLib (.compact acceptedHeader (demoClaims (.float64 0) []) "signed")
        ⟨1⟩ = true ∧
      (demoRS256.Parse demoLib (.compact acceptedHeader (demoClaims (.float64 0) []) "signed")
        false 1700000001 1700000001).1 =
        .ok ({ acceptedToken (demoClaims (.float64 0) []) with
                Signature := "signed", Valid := true }, Time.ofUnix 0)) ∧
    (demoRS256.validateHeaders demoLib
        (demoToken [("alg", .str "RS256"), ("type", .str "JWT")]) = none ∧
      verifySignature demoLib
        (.compact [("alg", .str "RS256"), ("type", .str "JWT")]
          (demoClaims (.float64 1000) []) "signed") ⟨1⟩ = true ∧
      (demoRS256.Parse demoLib
        (.compact [("alg", .str "RS256"), ("type", .str "JWT")]
          (demoClaims (.float64 1000) []) "signed") true 1700000001 1700000001).1 =
        .panic "interface conversion: interface {} is nil, not string") := by
  refine ⟨⟨by decide, by decide, ?_⟩, ⟨by decide, by decide, ?_⟩, by decide, by decide, ?_⟩
  · decide
  · decide
  · decide

/-- C7 (a non-numeric `exp` is accepted): a signed token with valid header,
issuer and audience whose `exp` is the string `tomorrow` is parsed with
success and the zero `time.Time`, for both values of `ignoreExpiration`; the
same token with `exp` set to JSON null is refused. -/
theorem C7_string_exp_accepted :
    (demoRS256.Parse demoLib
      (.compact acceptedHeader (demoClaims (.str "tomorrow") []) "signed")
      false 1700000001 1700000001).1 =
      .ok ({ acceptedToken (demoClaims (.str "tomorrow") []) with
              Signature := "signed", Valid := true }, Time.zero) ∧
    (demoRS256.Parse demoLib
      (.compact acceptedHeader (demoClaims (.str "tomorrow") []) "signed")
      true 1700000001 1700000001).1 =
      .ok ({ acceptedToken (demoClaims (.str "tomorrow") []) with
              Signature := "signed", Valid := true }, Time.zero) ∧
    (demoRS256.Parse demoLib (.compact acceptedHeader (demoClaims .null []) "signed")
      true 1700000001 1700000001).1 = .err "invalid claims: invalid expiration" := by
  refine ⟨?_, ?_, ?_⟩
  · decide
  · decide
  · decide

/-! ## Key resolution -/

/-- With no static key and an endpoint, cached bytes decide the outcome: the
result is that of parsing them, and neither the cache nor the HTTP client is
touched. -/
theorem getPublicKey_of_cached_bytes (R : RS256) (lib : Lib) (kid url b : String)
    (hp : R.publicKey = none) (hu : R.publicKeyURL = some url)
    (hc : mapGet R.cachedPublicKey (url ++ ":" ++ kid) = some (.bytes b)) :
    R.getPublicKey lib kid = (Result.ofExcept (lib.ParseRSAPublicKeyFromPEM b), R) := by
  simp only [RS256.getPublicKey, hp, hu, hc]

/-- Key resolution never adds an entry to the cache. -/
theorem getPublicKey_cache_subset (R : RS256) (lib : Lib) (kid k : String) (v : CacheValue)
    (h : mapGet (R.getPublicKey lib kid).2.cachedPublicKey k = some v) :
    mapGet R.cachedPublicKey k = some v := by
  have hdel : ∀ key, mapGet (mapDelete R.cachedPublicKey key) k = some v →
      mapGet R.cachedPublicKey k = some v := by
    intro key hk
    rw [mapGet_mapDelete] at hk
    by_cases e : key = k
    · simp [e] at hk
    · simpa [e] using hk
  cases hp : R.publicKey with
  | some key => simpa [RS256.getPublicKey, hp] using h
  | none =>
    cases hu : R.publicKeyURL with
    | none => simpa [RS256.getPublicKey, hp, hu] using h
    | some url =>
      have hmiss : (∀ b, mapGet R.cachedPublicKey (url ++ ":" ++ kid) ≠ some (.bytes b)) →
          mapGet R.cachedPublicKey k = some v := by
        intro hnb
        apply hdel (url ++ ":" ++ kid)
        have hmatch : R.getPublicKey lib kid =
            (let R1 : RS256 :=
              { R with cachedPublicKey := mapDelete R.cachedPublicKey (url ++ ":" ++ kid) }
            if !lib.NewRequest url then
              (.panic "runtime error: invalid memory address or nil pointer dereference", R1)
            else
              let answer := R1.httpClient.Do R1.httpClient.calls
              let R2 : RS256 :=
                { R1 with httpClient := { R1.httpClient with calls := R1.httpClient.calls + 1 } }
              match answer with
              | .error e => (.err e, R2)
              | .ok resp =>
                match resp.CloseErr with
                | some e => (.panic e, R2)
                | none => (RS256.readResponse lib resp kid, R2)) := by
          simp only [RS256.getPublicKey, hp, hu]
        rw [hmatch] at h
        simp only [] at h
        split at h
        · exact h
        · split at h
          · exact h
          · split at h
            · exact h
            · exact h
      cases hc : mapGet R.cachedPublicKey (url ++ ":" ++ kid) with
      | none => exact hmiss (by simp [hc])
      | some cv =>
        cases cv with
        | bytes b =>
          rw [getPublicKey_of_cached_bytes R lib kid url b hp hu hc] at h
          exact h
        | other r => exact hmiss (by simp [hc])

/-- On a cache miss with a usable endpoint URL, key resolution makes exactly
one HTTP call. -/
theorem getPublicKey_miss_calls (R : RS256) (lib : Lib) (kid url : String)
    (hp : R.publicKey = none) (hu : R.publicKeyURL = some url)
    (hc : mapGet R.cachedPublicKey (url ++ ":" ++ kid) = none)
    (hr : lib.NewRequest url = true) :
    (R.getPublicKey lib kid).2.httpClient.calls = R.httpClient.calls + 1 := by
  simp only [RS256.getPublicKey, hp, hu, hc, hr]
  simp only [Bool.not_true, Bool.false_eq_true, if_false]
  split
  · rfl
  · split <;> rfl

/-- C8 (as amended): with no static key and an endpoint, cached bytes decide
the outcome: key resolution returns the result of parsing them, the parse
error when they do not parse, and neither evicts the entry nor makes an HTTP
call.  When the cache holds no bytes under the cache key (no entry, or a value
of another type) and the request can be built, key resolution deletes the
entry, makes exactly one HTTP call, and returns the key whenever the endpoint
answers 200 with a body that is read, closed and unmarshalled and holds valid
PEM key material for that `kid`. -/
theorem C8_cached_bytes_are_trusted (R : RS256) (lib : Lib) (kid url : String)
    (hp : R.publicKey = none) (hu : R.publicKeyURL = some url) :
    (∀ b, mapGet R.cachedPublicKey (url ++ ":" ++ kid) = some (.bytes b) →
      R.getPublicKey lib kid = (Result.ofExcept (lib.ParseRSAPublicKeyFromPEM b), R)) ∧
    ((∀ b, mapGet R.cachedPublicKey (url ++ ":" ++ kid) ≠ some (.bytes b)) →
      lib.NewRequest url = true →
      ∀ (resp : Response) (body : String) (result : GoMap String) (pem : String)
        (key : PublicKey),
        R.httpClient.Do R.httpClient.calls = .ok resp → resp.StatusCode = 200 →
        resp.Body = .ok body → resp.CloseErr = none → lib.Unmarshal body = .ok result →
        mapGet result kid = some pem → lib.ParseRSAPublicKeyFromPEM pem = .ok key →
        (R.getPublicKey lib kid).1 = .ok key ∧
        (R.getPublicKey lib kid).2.httpClient.calls = R.httpClient.calls + 1 ∧
        (R.getPublicKey lib kid).2.cachedPublicKey =
          mapDelete R.cachedPublicKey (url ++ ":" ++ kid) ∧
        mapGet (R.getPublicKey lib kid).2.cachedPublicKey (url ++ ":" ++ kid) = none) := by
  constructor
  · intro b hc
    exact getPublicKey_of_cached_bytes R lib kid url b hp hu hc
  · intro hnb hr resp body result pem key hd hs hb hcl hun hres hpem
    have hget : R.getPublicKey lib kid =
        (.ok key,
          { R with
            cachedPublicKey := mapDelete R.cachedPublicKey (url ++ ":" ++ kid)
            httpClient := { R.httpClient with calls := R.httpClient.calls + 1 } }) := by
      simp only [RS256.getPublicKey, hp, hu, hr, hd, hcl, RS256.readResponse, hs, hb, hun,
        hres, hpem, Result.ofExcept]
      simp
    rw [hget]
    refine ⟨rfl, rfl, rfl, ?_⟩
    simp [mapGet_mapDelete]

/-- C8 at the example endpoint: a cached value of another type is replaced by
one fetch, cached bytes that are not a key are returned as the parser's
error. -/
theorem C8_cached_bytes_are_trusted_witness :
    demoWrongType.publicKey = none ∧
    demoWrongType.publicKeyURL = some "https://keys" ∧
    mapGet demoWrongType.cachedPublicKey "https://keys:kid-1" = some (.other "PEM-1") ∧
    ((demoWrongType.getPublicKey demoLib "kid-1").1 = .ok ⟨1⟩ ∧
      (demoWrongType.getPublicKey demoLib "kid-1").2.httpClient.calls = 1 ∧
      (demoWrongType.getPublicKey demoLib "kid-1").2.cachedPublicKey = []) ∧
    demoPoisoned.getPublicKey demoLib "kid-1" =
      (.err "Invalid Key: Key must be PEM encoded PKCS1 or PKCS8 private key", demoPoisoned) := by
  have h1 := C8_cached_bytes_are_trusted demoWrongType demoLib "kid-1" "https://keys" rfl rfl
  have h2 := C8_cached_bytes_are_trusted demoPoisoned demoLib "kid-1" "https://keys" rfl rfl
  have hmiss : ∀ b, mapGet demoWrongType.cachedPublicKey ("https://keys" ++ ":" ++ "kid-1") ≠
      some (.bytes b) := by
    intro b
    have e : mapGet demoWrongType.cachedPublicKey ("https://keys" ++ ":" ++ "kid-1") =
        some (.other "PEM-1") := by decide
    rw [e]
    simp
  obtain ⟨ha, hb, hc, _⟩ := h1.2 hmiss rfl
    { StatusCode := 200, Body := .ok "kid-1:PEM-1", CloseErr := none } "kid-1:PEM-1"
    [("kid-1", "PEM-1")] "PEM-1" ⟨1⟩ rfl rfl rfl rfl rfl (by decide) rfl
  refine ⟨rfl, rfl, by decide, ⟨ha, ?_, ?_⟩, ?_⟩
  · rw [hb]; rfl
  · rw [hc]; decide
  · exact h2.1 "garbage" (by decide)

/-- C8 fails as stated: with no static key, the endpoint `https://keys` and the
bytes `garbage` cached for `kid-1`, key resolution returns the PEM parser's
error, leaves the entry in the cache and makes no HTTP call, although the
endpoint would answer 200 with valid key material (as the resolution with an
empty cache shows). -/
theorem C8_counterexample :
    (demoPoisoned.getPublicKey demoLib "kid-1").1 =
      .err "Invalid Key: Key must be PEM encoded PKCS1 or PKCS8 private key" ∧
    (demoPoisoned.getPublicKey demoLib "kid-1").2.cachedPublicKey =
      [("https://keys:kid-1", .bytes "garbage")] ∧
    (demoPoisoned.getPublicKey demoLib "kid-1").2.httpClient.calls = 0 ∧
    (demoRemote.getPublicKey demoLib "kid-1").1 = .ok ⟨1⟩ ∧
    (demoRemote.getPublicKey demoLib "kid-1").2.httpClient.calls = 1 := by
  refine ⟨by decide, by decide, by decide, by decide, by decide⟩

/-- C9 (the cache is never filled): with no static key, the endpoint
`https://keys` and an empty cache, a first resolution of `kid-1` succeeds with
one HTTP call and leaves the cache empty, so the second resolution of `kid-1`
succeeds with a second HTTP call. -/
theorem C9_second_resolution_fetches_again :
    (demoRemote.getPublicKey demoLib "kid-1").1 = .ok ⟨1⟩ ∧
    (demoRemote.getPublicKey demoLib "kid-1").2.httpClient.calls = 1 ∧
    (demoRemote.getPublicKey demoLib "kid-1").2.cachedPublicKey = [] ∧
    ((demoRemote.getPublicKey demoLib "kid-1").2.getPublicKey demoLib "kid-1").1 = .ok ⟨1⟩ ∧
    ((demoRemote.getPublicKey demoLib "kid-1").2.getPublicKey demoLib "kid-1").2.httpClient.calls
      = 2 := by
  refine ⟨by decide, by decide, by decide, by decide, by decide⟩

/-! ## Side effects of Sign -/

/-- C11 (as amended): besides reading the clock, `Sign` writes into the
caller's map.  Without a private key the map is returned untouched.  With one,
the map after the call, whether signing succeeded or failed, is the map before
overridden at exactly the five keys `iss`, `aud`, `auth_time`, `iat`, `exp`;
every other entry is as before. -/
theorem C11_sign_writes_five_keys (R : RS256) (lib : Lib) (payload : GoMap Value) :
    (R.privateKey = none →
      R.Sign lib (some payload) = (.err "no private key provided", some payload)) ∧
    (∀ key, R.privateKey = some key →
      ∃ after, (R.Sign lib (some payload)).2 = some after ∧
        ∀ k, mapGet after k =
          if k = "iss" then some (.str R.issuer)
          else if k = "aud" then some (.str R.audience)
          else if k = "auth_time" then some (.int64 R.timegen.Now.Unix)
          else if k = "iat" then some (.int64 R.timegen.Now.Unix)
          else if k = "exp" then some (.int64 (R.timegen.Now.Add R.maxAge).Unix)
          else mapGet payload k) := by
  constructor
  · intro hk
    simp only [RS256.Sign, hk]
  · intro key hk
    refine ⟨R.injectClaims R.timegen.Now (R.timegen.Now.Add R.maxAge) payload, ?_, ?_⟩
    · simp only [RS256.Sign, hk, Time.UTC]
      cases (R.buildToken (R.injectClaims R.timegen.Now (R.timegen.Now.Add R.maxAge)
        payload)).SignedString lib key <;> rfl
    · intro k
      rw [mapGet_injectClaims R R.timegen.Now (R.timegen.Now.Add R.maxAge) payload k]
      by_cases h1 : k = "iss"
      · subst h1; simp
      by_cases h2 : k = "aud"
      · subst h2; simp
      by_cases h3 : k = "auth_time"
      · subst h3; simp
      by_cases h4 : k = "iat"
      · subst h4; simp
      simp [h1, h2, h3, h4]

/-- C11 fails as stated.  At the example instance the caller's map
`user_id = 42` holds six entries after a successful `Sign`, and it holds the
same six entries after a `Sign` that returned a signing error. -/
theorem C11_counterexample :
    ((demoRS256.Sign demoLib (some [("user_id", .int 42)])).1 =
        .ok (demoSigned, Time.ofUnix 1700003600) ∧
      (demoRS256.Sign demoLib (some [("user_id", .int 42)])).2 =
        some [("exp", .int64 1700003600), ("iat", .int64 1700000000),
          ("auth_time", .int64 1700000000), ("aud", .str "svc-b"), ("iss", .str "svc-a"),
          ("user_id", .int 42)]) ∧
    ((demoSignFails.Sign demoLib (some [("user_id", .int 42)])).1 =
        .err "crypto/rsa: message too long for RSA key size" ∧
      (demoSignFails.Sign demoLib (some [("user_id", .int 42)])).2 =
        some [("exp", .int64 1700003600), ("iat", .int64 1700000000),
          ("auth_time", .int64 1700000000), ("aud", .str "svc-b"), ("iss", .str "svc-a"),
          ("user_id", .int 42)]) := by
  refine ⟨⟨by decide, by decide⟩, by decide, by decide⟩

/-! ## Static key -/

/-- C12: with a static public key configured, key resolution returns exactly
that key for every key identifier and leaves the instance as it was (cache
and HTTP call counter untouched), whatever the endpoint, the cache contents
and the HTTP client. -/
theorem C12_static_key_wins (R : RS256) (lib : Lib) (kid : String) (key : PublicKey)
    (h : R.publicKey = some key) : R.getPublicKey lib kid = (.ok key, R) := by
  simp only [RS256.getPublicKey, h]

/-- C12 at a verifier that also has an endpoint and a cache entry that does
not parse. -/
theorem C12_static_key_wins_witness :
    demoStatic.publicKey = some ⟨1⟩ ∧
    demoStatic.publicKeyURL = some "https://keys" ∧
    demoStatic.cachedPublicKey = [("https://keys:kid-1", .bytes "garbage")] ∧
    (demoStatic.getPublicKey demoLib "kid-1").1 = .ok ⟨1⟩ ∧
    (demoStatic.getPublicKey demoLib "kid-1").2.httpClient.calls = 0 ∧
    (demoStatic.getPublicKey demoLib "kid-1").2.cachedPublicKey =
      [("https://keys:kid-1", .bytes "garbage")] := by
  have h := C12_static_key_wins demoStatic demoLib "kid-1" ⟨1⟩ rfl
  refine ⟨rfl, rfl, rfl, ?_, ?_, ?_⟩
  · rw [h]
  · rw [h]; rfl
  · rw [h]; rfl

/-! ## Totality of Parse -/

theorem validateClaims_error_returned (R : RS256) (lib : Lib) (claims : GoMap Value)
    (ig : Bool) (n1 : Int) (e : String) (h : R.validateClaims lib claims ig n1 = some e) :
    e ≠ "Token is expired" ∨ ig = false := by
  cases ig with
  | false => exact Or.inr rfl
  | true =>
    left
    have h2 : R.checkIssuerAudience lib claims = some e := by
      simpa [RS256.validateClaims] using h
    exact checkIssuerAudience_ne_expired R lib claims e h2

/-- When the key function returned an error: `Parse` returns it, unless its
message is `Token is expired` and expiry is ignored, in which case `Parse`
goes on to the expiry extraction. -/
theorem Parse_of_keyFunc_err_any (R R2 : RS256) (lib : Lib) (ts : TokenString) (ig : Bool)
    (n1 n2 : Int) (token : Token) (e : String) (h : ParseUnverified ts = .ok token)
    (hk : RS256.keyFunc lib ig n1 token R = (.err e, R2)) :
    R.Parse lib ts ig n1 n2 =
      (if e = "Token is expired" ∧ ig = true then (extractExpiry token, R2)
       else (.err e, R2)) := by
  simp only [RS256.Parse, jwtParse, h, hk]
  by_cases he : e = "Token is expired"
  · subst he
    cases ig <;> simp
  · simp [he]

theorem extractExpiry_ne_panic (token : Token) (p : String) :
    extractExpiry token ≠ .panic p := by
  unfold extractExpiry
  split <;> simp

/-- Key resolution panics when the response body fails to close. -/
theorem getPublicKey_close_panics (R : RS256) (lib : Lib) (kid url e : String)
    (resp : Response) (hp : R.publicKey = none) (hu : R.publicKeyURL = some url)
    (hc : ∀ b, mapGet R.cachedPublicKey (url ++ ":" ++ kid) ≠ some (.bytes b))
    (hr : lib.NewRequest url = true) (hd : R.httpClient.Do R.httpClient.calls = .ok resp)
    (hclose : resp.CloseErr = some e) :
    (R.getPublicKey lib kid).1 = .panic e := by
  simp only [RS256.getPublicKey, hp, hu, hr, hd, hclose]
  simp

/-- C14 (as amended): whenever the decoded header's `kid` is a string and key
resolution does not panic, `Parse` ends in success or in a returned error, for
every token string, both values of `ignoreExpiration` and every clock reading.
Key resolution does panic, by the `panic(err.Error())` of its deferred
`Body.Close()`, when closing the response body of the key fetch fails. -/
theorem C14_parse_returns_unless_resolution_panics (R : RS256) (lib : Lib)
    (ts : TokenString) (ig : Bool) (n1 n2 : Int)
    (hkid : ∀ token, ParseUnverified ts = .ok token →
      ∃ kid, mapGet token.Header "kid" = some (.str kid))
    (hres : ∀ kid p, (R.getPublicKey lib kid).1 ≠ .panic p) :
    (∀ p, (R.Parse lib ts ig n1 n2).1 ≠ .panic p) ∧
    (∀ (R0 : RS256) (kid url e : String) (resp : Response),
      R0.publicKey = none → R0.publicKeyURL = some url →
      (∀ b, mapGet R0.cachedPublicKey (url ++ ":" ++ kid) ≠ some (.bytes b)) →
      lib.NewRequest url = true → R0.httpClient.Do R0.httpClient.calls = .ok resp →
      resp.CloseErr = some e → (R0.getPublicKey lib kid).1 = .panic e) := by
  refine ⟨?_, fun R0 kid url e resp hp hu hc hr hd hclose =>
    getPublicKey_close_panics R0 lib kid url e resp hp hu hc hr hd hclose⟩
  intro p
  cases hd : ParseUnverified ts with
  | error e =>
    rw [Parse_of_decode_error R lib ts ig n1 n2 e hd]
    simp
  | ok token =>
    have herr : ∀ (e : String) (R2 : RS256),
        RS256.keyFunc lib ig n1 token R = (.err e, R2) →
        (R.Parse lib ts ig n1 n2).1 ≠ .panic p := by
      intro e R2 hk
      rw [Parse_of_keyFunc_err_any R R2 lib ts ig n1 n2 token e hd hk]
      split
      · exact extractExpiry_ne_panic token p
      · simp
    cases hh : R.validateHeaders lib token with
    | some e => exact herr e R (keyFunc_of_header_error R lib ig n1 token e hh)
    | none =>
      cases hc : R.validateClaims lib token.Claims ig n1 with
      | some e => exact herr e R (keyFunc_of_claims_error R lib ig n1 token e hh hc)
      | none =>
        obtain ⟨kid, hk⟩ := hkid token hd
        have hkf := keyFunc_of_valid R lib ig n1 token kid hh hc hk
        cases hg : R.getPublicKey lib kid with
        | mk res R2 =>
          cases res with
          | panic q =>
            exact absurd (by rw [hg]) (hres kid q)
          | err e => exact herr e R2 (by rw [hkf, hg])
          | ok key =>
            rw [Parse_of_keyFunc_ok R R2 lib ts ig n1 n2 token key hd (by rw [hkf, hg])]
            split
            · split
              · exact extractExpiry_ne_panic _ p
              · split
                · exact extractExpiry_ne_panic _ p
                · simp
            · simp

/-- C14 at a signed, unexpired token with a string `kid`, verified with the
static public key. -/
theorem C14_parse_returns_unless_resolution_panics_witness :
    (∀ token,
      ParseUnverified (.compact acceptedHeader (demoClaims (.float64 1700003600) []) "signed")
        = .ok token →
      ∃ kid, mapGet token.Header "kid" = some (.str kid)) ∧
    (∀ kid p, (demoRS256.getPublicKey demoLib kid).1 ≠ .panic p) ∧
    (∀ p, (demoRS256.Parse demoLib
      (.compact acceptedHeader (demoClaims (.float64 1700003600) []) "signed")
      false 1700000001 1700000001).1 ≠ .panic p) := by
  have hkid : ∀ token,
      ParseUnverified (.compact acceptedHeader (demoClaims (.float64 1700003600) []) "signed")
        = .ok token →
      ∃ kid, mapGet token.Header "kid" = some (.str kid) := by
    intro token h
    have h2 : ParseUnverified
        (.compact acceptedHeader (demoClaims (.float64 1700003600) []) "signed") =
        .ok (acceptedToken (demoClaims (.float64 1700003600) [])) := rfl
    rw [h2] at h
    cases h
    exact ⟨"kid-1", by decide⟩
  have hres : ∀ kid p, (demoRS256.getPublicKey demoLib kid).1 ≠ .panic p := by
    intro kid p
    simp [RS256.getPublicKey, demoRS256]
  exact ⟨hkid, hres,
    (C14_parse_returns_unless_resolution_panics demoRS256 demoLib _ false
      1700000001 1700000001 hkid hres).1⟩

/-- C14 fails as stated: `Parse` panics on a signed, unexpired token with
valid header and claims when closing the response body of the key fetch
fails, when the header has no `kid`, and when `kid` is a number. -/
theorem C14_counterexample :
    (demoCloseFails.Parse demoLib
      (.compact acceptedHeader (demoClaims (.float64 1700003600) []) "signed")
      false 1700000001 1700000001).1 = .panic "close: connection reset" ∧
    (demoRS256.Parse demoLib
      (.compact [("alg", .str "RS256"), ("type", .str "JWT")]
        (demoClaims (.float64 1700003600) []) "signed")
      false 1700000001 1700000001).1 =
      .panic "interface conversion: interface {} is nil, not string" ∧
    (demoRS256.Parse demoLib
      (.compact [("alg", .str "RS256"), ("type", .str "JWT"), ("kid", .float64 7)]
        (demoClaims (.float64 1700003600) []) "signed")
      true 1700000001 1700000001).1 =
      .panic "interface conversion: interface {} is float64, not string" := by
  refine ⟨by decide, by decide, by decide⟩

/-! ## Query builder -/

theorem sprintf1_cons_of_ne (c : Char) (l : List Char) (operand : Option String)
    (h : c ≠ '%') :
    sprintf1 (c :: l) operand = (sprintf1 l operand).map (fun out => c :: out) := by
  cases l with
  | nil => simp [sprintf1, h]
  | cons d rest => simp [sprintf1, h]

/-- Text free of `%` in front of a format is copied. -/
theorem sprintf1_lead (p : List Char) (hp : '%' ∉ p) (rest : List Char)
    (operand : Option String) :
    sprintf1 (p ++ rest) operand = (sprintf1 rest operand).map (fun out => p ++ out) := by
  induction p with
  | nil => simp
  | cons c p ih =>
    have hc : c ≠ '%' := fun e => hp (by simp [e])
    have hp2 : '%' ∉ p := fun e => hp (by simp [e])
    rw [List.cons_append, sprintf1_cons_of_ne _ _ _ hc, ih hp2, Option.map_map]
    rfl

theorem Sprintf_bare (f : Fmt) (lead val : String) (h : '%' ∉ lead.data) :
    Sprintf f (lead ++ "%s") val = lead ++ val := by
  have h1 : sprintf1 (lead ++ "%s").data (some val) = some (lead ++ val).data := by
    rw [String.data_append, sprintf1_lead _ h]
    simp [sprintf1]
  simp only [Sprintf, h1]

theorem Sprintf_quoted (f : Fmt) (lead val : String) (h : '%' ∉ lead.data) :
    Sprintf f (lead ++ "\x27%s\x27") val = lead ++ "\x27" ++ val ++ "\x27" := by
  have h1 : sprintf1 (lead ++ "\x27%s\x27").data (some val) =
      some (lead ++ "\x27" ++ val ++ "\x27").data := by
    rw [String.data_append, sprintf1_lead _ h]
    simp [sprintf1]
  simp only [Sprintf, h1]

theorem Sprintf_like (f : Fmt) (lead val : String) (h : '%' ∉ lead.data) :
    Sprintf f (lead ++ "\x27%%%s%%\x27") val = lead ++ "\x27%" ++ val ++ "%\x27" := by
  have h1 : sprintf1 (lead ++ "\x27%%%s%%\x27").data (some val) =
      some (lead ++ "\x27%" ++ val ++ "%\x27").data := by
    rw [String.data_append, sprintf1_lead _ h]
    simp [sprintf1]
  simp only [Sprintf, h1]

theorem no_percent_append (a b : String) (ha : '%' ∉ a.data) (hb : '%' ∉ b.data) :
    '%' ∉ (a ++ b).data := by
  simp [String.data_append, ha, hb]

/-- An `Expression` over a Go `int` renders as key, operator, decimal. -/
theorem ToString_int (f : Fmt) (key exp : String) (n : Int)
    (hk : '%' ∉ key.data) (he : '%' ∉ exp.data) :
    Expression.ToString f ⟨key, exp, .int n⟩ = .ok (key ++ exp ++ Itoa n) := by
  simp only [Expression.ToString, Expression.getReplaceExp]
  rw [Sprintf_bare f (key ++ exp) (Itoa n) (no_percent_append key exp hk he)]

/-- An `Expression` over a string that is not blank renders as key, operator
and the HTML-escaped value in single quotes, with `%` inside the quotes when
the operator is `LIKE`. -/
theorem ToString_str (f : Fmt) (key exp val : String)
    (hk : '%' ∉ key.data) (he : '%' ∉ exp.data) (hv : TrimSpace val ≠ "") :
    Expression.ToString f ⟨key, exp, .str val⟩ =
      .ok (if exp = "LIKE" then key ++ exp ++ "\x27%" ++ HTMLEscapeString val ++ "%\x27"
        else key ++ exp ++ "\x27" ++ HTMLEscapeString val ++ "\x27") := by
  simp only [Expression.ToString, Expression.getReplaceExp, Expression.HasLikeOperator, hv,
    if_false]
  by_cases hl : exp = "LIKE"
  · simp only [hl, decide_True, if_true]
    rw [Sprintf_like f (key ++ "LIKE") _ (no_percent_append key "LIKE" hk (by decide))]
  · simp only [hl, decide_False, if_false, Bool.false_eq_true]
    rw [Sprintf_quoted f (key ++ exp) _ (no_percent_append key exp hk he)]

/-- An `Expression` over nil or over a blank string renders as the empty
string. -/
theorem ToString_empty (f : Fmt) (key exp val : String) (hv : TrimSpace val = "") :
    Expression.ToString f ⟨key, exp, .nil⟩ = .ok "" ∧
    Expression.ToString f ⟨key, exp, .str val⟩ = .ok "" := by
  simp [Expression.ToString, hv]

/-- The loop keeps the non-empty renderings, in order. -/
theorem collectClauses_of_renderings (f : Fmt) :
    ∀ (component : List Component) (renderings : List String),
      component.map (componentToString f) = renderings.map Result.ok →
      collectClauses f component = .ok (renderings.filter (fun r => decide (r ≠ ""))) := by
  intro component
  induction component with
  | nil =>
    intro renderings h
    cases renderings with
    | nil => rfl
    | cons r rs => simp at h
  | cons c rest ih =>
    intro renderings h
    cases renderings with
    | nil => simp at h
    | cons r rs =>
      simp only [List.map_cons, List.cons.injEq] at h
      obtain ⟨h1, h2⟩ := h
      simp only [collectClauses, h1, ih rs h2, List.filter_cons]
      by_cases hr : r = "" <;> simp [hr]

theorem stringsJoin_ne_empty (clauses : List String) (sep : String)
    (hne : clauses ≠ []) (hall : ∀ c ∈ clauses, c ≠ "") : stringsJoin clauses sep ≠ "" := by
  cases clauses with
  | nil => exact absurd rfl hne
  | cons a rest =>
    have ha : a ≠ "" := hall a (by simp)
    have had : a.data ≠ [] := fun e => ha (String.ext e)
    cases rest with
    | nil => simpa [stringsJoin] using ha
    | cons b rest2 =>
      intro e
      have h := congrArg String.data e
      simp [stringsJoin, String.data_append, had] at h

theorem indexFrom_ge (sub : List Char) :
    ∀ (l : List Char) (offset : Nat),
      indexFrom sub l offset = -1 ∨ (offset : Int) ≤ indexFrom sub l offset := by
  intro l
  induction l with
  | nil =>
    intro offset
    simp only [indexFrom]
    split
    · right; exact le_refl _
    · left; rfl
  | cons c rest ih =>
    intro offset
    simp only [indexFrom]
    split
    · right; exact le_refl _
    · rcases ih (offset + c.utf8Size) with h | h
      · left; exact h
      · right
        have : (offset : Int) ≤ ((offset + c.utf8Size : Nat) : Int) := by
          push_cast
          omega
        exact le_trans this h

/-- A parenthesised, non-empty builder text is bound with ` WHERE `. -/
theorem BindSQL_parenthesised (x sql : String) (hx : x ≠ "") :
    DynamicQueryBuilder.BindSQL ("( " ++ x ++ ")") sql = sql ++ " WHERE " ++ ("( " ++ x ++ ")") := by
  have hxd : x.data ≠ [] := fun e => hx (String.ext e)
  have h1 : ("( " ++ x ++ ")" : String) ≠ "" := by
    intro e
    have h := congrArg String.data e
    simp [String.data_append] at h
  have h2 : ("( " ++ x ++ ")" : String) ≠ "( )" := by
    intro e
    have h := congrArg String.data e
    simp [String.data_append, hxd] at h
  have h3 : stringsIndex ("( " ++ x ++ ")") "LIMIT" ≠ 1 := by
    have hdata : ("( " ++ x ++ ")" : String).data = '(' :: ' ' :: (x.data ++ [')']) := by
      simp [String.data_append]
    simp only [stringsIndex, hdata, DynamicQueryBuilder.ToString]
    simp only [indexFrom, startsWith]
    have e1 : decide ('(' = 'L') = false := by decide
    have e2 : decide (' ' = 'L') = false := by decide
    simp only [e1, e2, Bool.false_and, Bool.false_eq_true, if_false]
    have hsz : 0 + '('.utf8Size + ' '.utf8Size = 2 := by decide
    rw [hsz]
    rcases indexFrom_ge ['L', 'I', 'M', 'I', 'T'] (x.data ++ [')']) 2 with h | h
    · rw [h]; decide
    · intro e
      rw [e] at h
      norm_num at h
  simp only [DynamicQueryBuilder.BindSQL, DynamicQueryBuilder.ToString]
  rw [if_pos ⟨h1, h2⟩]
  simp only [DynamicQueryBuilder.ToString] at h3
  rw [if_neg h3]

/-- `getOperationExpression` on two or more components that all render. -/
theorem getOperationExpression_of_renderings (f : Fmt) (dqb : DynamicQueryBuilder)
    (operation : String) (component : List Component) (renderings : List String)
    (hlen : 2 ≤ component.length)
    (hr : component.map (componentToString f) = renderings.map Result.ok)
    (hne : ∃ r, r ∈ renderings ∧ r ≠ "") :
    DynamicQueryBuilder.getOperationExpression f dqb operation component =
      .ok ("( " ++ stringsJoin (renderings.filter (fun r => decide (r ≠ "")))
        (" " ++ operation ++ " ") ++ ")") := by
  have hc := collectClauses_of_renderings f component renderings hr
  have hpos : 0 < (renderings.filter (fun r => decide (r ≠ ""))).length := by
    obtain ⟨r, hr1, hr2⟩ := hne
    apply List.length_pos_of_mem (a := r)
    simp [List.mem_filter, hr1, hr2]
  cases component with
  | nil => simp at hlen
  | cons a rest =>
    cases rest with
    | nil => simp at hlen
    | cons b rest2 =>
      simp only [DynamicQueryBuilder.getOperationExpression, hc, hpos, if_true]

/-- C13 (as amended): for two or more components that all render (none is a
`*string` or an `Expression` over `int16`, `int32` or `int64`) and of which at
least one renders non-empty, `And` (resp. `OR`) returns `( ` + the non-empty
renderings joined by ` AND ` (resp. ` OR `) + `)`, and `BindSQL` of that text on
a query `q` returns `q` + ` WHERE ` + the text.  A string and a nested builder
render verbatim.  With key and operator free of `%`, an `Expression` over a Go
`int` renders as key + operator + decimal, and one over a non-blank string as
key + operator + the HTML-escaped value in single quotes (between `'%` and `%'`
when the operator is `LIKE`); over nil or a blank string it renders empty. -/
theorem C13_builder_composition (f : Fmt) (dqb : DynamicQueryBuilder)
    (component : List Component) (renderings : List String)
    (hlen : 2 ≤ component.length)
    (hr : component.map (componentToString f) = renderings.map Result.ok)
    (hne : ∃ r, r ∈ renderings ∧ r ≠ "") :
    (DynamicQueryBuilder.And f dqb component =
        .ok ("( " ++ stringsJoin (renderings.filter (fun r => decide (r ≠ ""))) " AND " ++ ")") ∧
      ∀ q, DynamicQueryBuilder.BindSQL
          ("( " ++ stringsJoin (renderings.filter (fun r => decide (r ≠ ""))) " AND " ++ ")") q =
        q ++ " WHERE " ++
          ("( " ++ stringsJoin (renderings.filter (fun r => decide (r ≠ ""))) " AND " ++ ")")) ∧
    (DynamicQueryBuilder.OR f dqb component =
        .ok ("( " ++ stringsJoin (renderings.filter (fun r => decide (r ≠ ""))) " OR " ++ ")") ∧
      ∀ q, DynamicQueryBuilder.BindSQL
          ("( " ++ stringsJoin (renderings.filter (fun r => decide (r ≠ ""))) " OR " ++ ")") q =
        q ++ " WHERE " ++
          ("( " ++ stringsJoin (renderings.filter (fun r => decide (r ≠ ""))) " OR " ++ ")")) ∧
    (∀ s, componentToString f (.str s) = .ok s) ∧
    (∀ b, componentToString f (.builder b) = .ok b) ∧
    (∀ key exp n, '%' ∉ key.data → '%' ∉ exp.data →
      componentToString f (.expression ⟨key, exp, .int n⟩) = .ok (key ++ exp ++ Itoa n)) ∧
    (∀ key exp val, '%' ∉ key.data → '%' ∉ exp.data → TrimSpace val ≠ "" →
      componentToString f (.expression ⟨key, exp, .str val⟩) =
        .ok (if exp = "LIKE" then key ++ exp ++ "\x27%" ++ HTMLEscapeString val ++ "%\x27"
          else key ++ exp ++ "\x27" ++ HTMLEscapeString val ++ "\x27")) ∧
    (∀ key exp val, TrimSpace val = "" →
      componentToString f (.expression ⟨key, exp, .nil⟩) = .ok "" ∧
      componentToString f (.expression ⟨key, exp, .str val⟩) = .ok "") := by
  have hjoin : ∀ sep, stringsJoin (renderings.filter (fun r => decide (r ≠ ""))) sep ≠ "" := by
    intro sep
    apply stringsJoin_ne_empty
    · obtain ⟨r, hr1, hr2⟩ := hne
      intro e
      have : r ∈ renderings.filter (fun r => decide (r ≠ "")) := by
        simp [List.mem_filter, hr1, hr2]
      rw [e] at this
      simp at this
    · intro c hc
      simpa [List.mem_filter] using (List.mem_filter.mp hc).2
  refine ⟨⟨?_, ?_⟩, ⟨?_, ?_⟩, fun s => rfl, fun b => rfl, ?_, ?_, ?_⟩
  · exact getOperationExpression_of_renderings f dqb "AND" component renderings hlen hr hne
  · intro q
    exact BindSQL_parenthesised _ q (hjoin " AND ")
  · exact getOperationExpression_of_renderings f dqb "OR" component renderings hlen hr hne
  · intro q
    exact BindSQL_parenthesised _ q (hjoin " OR ")
  · intro key exp n hk he
    exact ToString_int f key exp n hk he
  · intro key exp val hk he hv
    exact ToString_str f key exp val hk he hv
  · intro key exp val hv
    exact ToString_empty f key exp val hv

set_option maxRecDepth 100000 in
/-- C13 at the builder of `TestDynamicQueryBuilder_GenerateQuery`: the nested
`OR`, the outer `And` and `BindSQL` give the query the test expects. -/
theorem C13_builder_composition_witness :
    2 ≤ (testComponents "( a.status=\x27some_status\x27 OR a.id=2)").length ∧
    (testComponents "( a.status=\x27some_status\x27 OR a.id=2)").map (componentToString demoFmt) =
      ["a.created_at>=\x272018-01-01 \x27", "a.created_at<=\x272019-01-01 \x27", "a.id >= 0",
        "a.status IN (\x27pending\x27,\x27complete\x27,\x27initiated\x27)",
        "( a.status=\x27some_status\x27 OR a.id=2)"].map Result.ok ∧
    DynamicQueryBuilder.OR demoFmt "" testInner =
      .ok "( a.status=\x27some_status\x27 OR a.id=2)" ∧
    DynamicQueryBuilder.And demoFmt ""
        (testComponents "( a.status=\x27some_status\x27 OR a.id=2)") =
      .ok "( a.created_at>=\x272018-01-01 \x27 AND a.created_at<=\x272019-01-01 \x27 AND a.id >= 0 AND a.status IN (\x27pending\x27,\x27complete\x27,\x27initiated\x27) AND ( a.status=\x27some_status\x27 OR a.id=2))" ∧
    DynamicQueryBuilder.BindSQL
        "( a.created_at>=\x272018-01-01 \x27 AND a.created_at<=\x272019-01-01 \x27 AND a.id >= 0 AND a.status IN (\x27pending\x27,\x27complete\x27,\x27initiated\x27) AND ( a.status=\x27some_status\x27 OR a.id=2))"
        "select * from application a" =
      "select * from application a WHERE ( a.created_at>=\x272018-01-01 \x27 AND a.created_at<=\x272019-01-01 \x27 AND a.id >= 0 AND a.status IN (\x27pending\x27,\x27complete\x27,\x27initiated\x27) AND ( a.status=\x27some_status\x27 OR a.id=2))" := by
  have h := C13_builder_composition demoFmt ""
    (testComponents "( a.status=\x27some_status\x27 OR a.id=2)")
    ["a.created_at>=\x272018-01-01 \x27", "a.created_at<=\x272019-01-01 \x27", "a.id >= 0",
      "a.status IN (\x27pending\x27,\x27complete\x27,\x27initiated\x27)",
      "( a.status=\x27some_status\x27 OR a.id=2)"]
    (by decide) (by decide) ⟨"a.id >= 0", by decide, by decide⟩
  have htext : ("( " ++ stringsJoin
      (["a.created_at>=\x272018-01-01 \x27", "a.created_at<=\x272019-01-01 \x27", "a.id >= 0",
        "a.status IN (\x27pending\x27,\x27complete\x27,\x27initiated\x27)",
        "( a.status=\x27some_status\x27 OR a.id=2)"].filter (fun r => decide (r ≠ "")))
      " AND " ++ ")" : String) =
      "( a.created_at>=\x272018-01-01 \x27 AND a.created_at<=\x272019-01-01 \x27 AND a.id >= 0 AND a.status IN (\x27pending\x27,\x27complete\x27,\x27initiated\x27) AND ( a.status=\x27some_status\x27 OR a.id=2))" := by
    decide
  refine ⟨by decide, by decide, by decide, ?_, ?_⟩
  · rw [h.1.1, htext]
  · have h2 := h.1.2 "select * from application a"
    rw [htext] at h2
    exact h2

/-- C13 fails as stated.  A string value is HTML-escaped before it is quoted
(`a<b` is rendered `a&lt;b`); with the operator `LIKE` the value is put
between `'%` and `%'`; and an `Expression` over an `int64` makes `And` panic. -/
theorem C13_counterexample :
    DynamicQueryBuilder.And demoFmt ""
        [.expression (DynamicQueryBuilder.NewExp "" "name" "=" (.str "a<b")),
         .expression (DynamicQueryBuilder.NewExp "" "age" "=" (.int 3))] =
      .ok "( name=\x27a&lt;b\x27 AND age=3)" ∧
    DynamicQueryBuilder.And demoFmt ""
        [.expression (DynamicQueryBuilder.NewExp "" "name" "LIKE" (.str "bob")),
         .str "x"] =
      .ok "( nameLIKE\x27%bob%\x27 AND x)" ∧
    DynamicQueryBuilder.And demoFmt ""
        [.expression (DynamicQueryBuilder.NewExp "" "n" "=" (.int64 3)), .str "x"] =
      .panic "interface conversion: interface {} is int64, not int" := by
  refine ⟨by decide, by decide, by decide⟩

end AuthAPI
